import Mathlib

/-!
# Cyber-Grid frontend: loadout manager, router, catalog and small handlers

A shallow embedding of `script.js`.  The script keeps its state in process-wide
variables (`currentUser`, `authToken`, `firebaseDb`), in the `LoadoutManager`
instance (`this.loadout`), in `localStorage`, in `location` and in the DOM.  All of
them are collected in one record, `App`, and every method becomes a function
`App → App`.  What the script sends to the outside (toasts, order requests, writes
to the remote store, pushed urls) is appended to a log kept in the same record; what
it receives from the outside (the answer to the order request, a snapshot or a
notification of the remote store) is an argument.  The grid renderers read a
dataset and write one container and one button; they are functions of the dataset
and of that part of the page.  In the same way `loadData` is a function of the
three answers of the backend, the modal opener of the dataset and the modal state,
the reply of the chat assistant of the input, and the Konami handler of its index.
-/

namespace CyberGrid

/-! ## Values -/

/-- An identifier as the script meets it: a JavaScript number (catalog ids are
integers) or a JavaScript string (the value of a DOM attribute).  Equality of
this type is JavaScript's strict equality `===`: a number is never equal to a
string. -/
inductive Id where
  | num (n : Int)
  | str (s : String)
  deriving DecidableEq, Repr

/-- JavaScript `String(v)` on an identifier: the decimal numeral of an integer
(the form JavaScript prints below 10^21), a string unchanged. -/
def jsString : Id → String
  | .num n => toString n
  | .str s => s

/-- The object `addItem` receives and the loadout stores: `{ id, name, type }`. -/
structure Entry where
  id : Id
  name : String
  type : String
  deriving DecidableEq, Repr

/-- The session record kept in `currentUser`: `{ id, username, email, is_admin }`. -/
structure User where
  id : Id
  username : String
  email : String
  is_admin : Bool
  deriving DecidableEq, Repr

/-- What `checkout` passes to `fetch`: the url, the `Authorization` header and the
`productIds` of the JSON body. -/
structure OrderRequest where
  url : String
  authorization : String
  productIds : List Id
  deriving DecidableEq, Repr

/-- What comes back from the order request: `fetch` rejects, or the response has
`ok` set, or it has not; in the last case reading the body fails (`none`: `res.json()`
rejects) or yields an object whose `error` property is a string or is missing
(`undefined`). -/
inductive OrderResponse where
  | rejected
  | ok
  | error (body : Option (Option String))
  deriving DecidableEq, Repr

/-- What `loadoutRef.once('value')` comes back with: the read is rejected, or the
snapshot holds `val()`, `none` for `null` (nothing stored at that location). -/
inductive Snapshot where
  | rejected
  | val (v : Option (List Entry))
  deriving DecidableEq, Repr

/-- The view templates, by name: which markup `#app-root` holds. -/
inductive View where
  | viewHome
  | viewAssetStore
  | viewAiProjects
  | viewContact
  | viewAdmin
  deriving DecidableEq, Repr

/-- One entry of the route table: `{ path, view, protected, admin }`; a flag the
source leaves out is `undefined`, which tests as false. -/
structure Route where
  path : String
  view : View
  protected_ : Bool
  admin : Bool
  deriving DecidableEq, Repr

/-- A catalog record of `projects` or `aiProjects`:
`{ id, title, category, tag, img, desc }`. -/
structure CatalogItem where
  id : Id
  title : String
  category : String
  tag : String
  img : String
  desc : String
  deriving DecidableEq, Repr

/-- The part of the page a grid renderer writes to: the cards of the container
(`none` when no element has the container id) and the `style.display` of the
load-more button (`none` when there is no such button). -/
structure GridDom where
  container : Option (List CatalogItem)
  loadMore : Option String
  deriving DecidableEq, Repr

/-! ## JSON.stringify on a loadout -/

/-- One lower-case hexadecimal digit. -/
def hexDigit (n : Nat) : Char :=
  if n < 10 then Char.ofNat (48 + n) else Char.ofNat (87 + n)

/-- The escape `JSON.stringify` writes for one character of a string. -/
def jsonEscapeChar (c : Char) : List Char :=
  if c.toNat = 34 then [Char.ofNat 92, Char.ofNat 34]
  else if c.toNat = 92 then [Char.ofNat 92, Char.ofNat 92]
  else if c.toNat = 8 then [Char.ofNat 92, 'b']
  else if c.toNat = 9 then [Char.ofNat 92, 't']
  else if c.toNat = 10 then [Char.ofNat 92, 'n']
  else if c.toNat = 12 then [Char.ofNat 92, 'f']
  else if c.toNat = 13 then [Char.ofNat 92, 'r']
  else if c.toNat < 32 then
    [Char.ofNat 92, 'u', '0', '0', hexDigit (c.toNat / 16), hexDigit (c.toNat % 16)]
  else [c]

/-- The quoted form `JSON.stringify` gives a string. -/
def jsonQuote (s : String) : String :=
  String.mk ([Char.ofNat 34] ++ (s.toList.map jsonEscapeChar).flatten ++ [Char.ofNat 34])

/-- The form `JSON.stringify` gives an identifier. -/
def jsonId : Id → String
  | .num n => toString n
  | .str s => jsonQuote s

/-- The form `JSON.stringify` gives one loadout entry, keys in creation order. -/
def jsonEntry (e : Entry) : String :=
  "\x7b" ++ jsonQuote "id" ++ ":" ++ jsonId e.id ++ "," ++ jsonQuote "name" ++ ":" ++
    jsonQuote e.name ++ "," ++ jsonQuote "type" ++ ":" ++ jsonQuote e.type ++ "\x7d"

/-- The text `JSON.stringify(this.loadout)`. -/
def jsonStringify (l : List Entry) : String :=
  "[" ++ ",".intercalate (l.map jsonEntry) ++ "]"

/-! ## localStorage -/

/-- The store behind `localStorage`: keys with their values, no key twice. -/
abbrev Storage := List (String × String)

/-- The call `localStorage.getItem(key)`, `none` for `null`. -/
def getItem (st : Storage) (key : String) : Option String :=
  (st.find? (fun kv => kv.1 = key)).map (fun kv => kv.2)

/-- The call `localStorage.removeItem(key)`. -/
def removeStored (st : Storage) (key : String) : Storage :=
  st.filter (fun kv => kv.1 ≠ key)

/-- The call `localStorage.setItem(key, value)`. -/
def setItem (st : Storage) (key value : String) : Storage :=
  (key, value) :: removeStored st key

/-! ## Application state -/

/-- The constant `API_BASE`. -/
def API_BASE : String := "https://cyber-grid-backend.vercel.app/api"

/-- Everything the loadout manager reads or writes. -/
structure App where
  /-- The field `this.loadout`. -/
  loadout : List Entry
  /-- The global `currentUser`, `none` for `null`. -/
  currentUser : Option User
  /-- The global `authToken`, `none` for `null`. -/
  authToken : Option String
  /-- Whether the global `firebaseDb` holds a database handle. -/
  firebaseDb : Bool
  /-- The browser's `localStorage`. -/
  localStorage : Storage
  /-- Every `ref(path).set(value)` sent to the remote store, oldest first. -/
  remoteWrites : List (String × List Entry)
  /-- Every text passed to `showToast`, oldest first. -/
  toasts : List String
  /-- Every order request passed to `fetch`, oldest first. -/
  requests : List OrderRequest
  /-- Whether `#login-modal` carries the class `active`. -/
  loginModalActive : Bool
  /-- The number `updateUI` last wrote into `#loadout-count`. -/
  uiCount : Nat
  /-- The entries `updateUI` last rendered into `#loadout-items-container`. -/
  uiItems : List Entry
  /-- Every location a `'value'` listener was registered on with `on`, oldest first. -/
  remoteListeners : List String := []
  /-- The value of `location.pathname`. -/
  pathname : String := "/"
  /-- The value of `location.protocol`. -/
  protocol : String := "https:"
  /-- Every url `history.pushState` has taken, oldest first. -/
  pushed : List String := []
  /-- Every exception `history.pushState` threw and `navigateTo` let through, caught
  by nobody, oldest first. -/
  navigationErrors : List String := []
  /-- The element `#app-root`: `none` when the page has none, else the view it holds
  (`none` before the first render). -/
  appRoot : Option (Option View) := some none
  /-- The route paths whose view set-up the router has scheduled with `setTimeout`,
  oldest first. -/
  scheduledSetups : List String := []
  deriving DecidableEq, Repr

namespace LoadoutManager

/-- The method `showToast(msg)`: a toast with this text is put on screen. -/
def showToast (s : App) (msg : String) : App :=
  { s with toasts := s.toasts ++ [msg] }

/-- The method `updateUI()`: counter and item list are redrawn from `this.loadout`. -/
def updateUI (s : App) : App :=
  { s with uiCount := s.loadout.length, uiItems := s.loadout }

/-- The method `saveState()`: the loadout is written to `localStorage`, the UI is
redrawn, and with a session and a remote store the loadout is also sent there. -/
def saveState (s : App) : App :=
  let s1 := { s with
    localStorage := setItem s.localStorage "cyberGrid_Loadout" (jsonStringify s.loadout) }
  let s2 := updateUI s1
  match s2.currentUser with
  | some u =>
    if s2.firebaseDb then
      { s2 with remoteWrites := s2.remoteWrites ++ [("loadouts/" ++ jsString u.id, s2.loadout)] }
    else s2
  | none => s2

/-- The method `addItem(itemObj)`: when `find` meets no entry with a strictly equal
id, the item is pushed, the state saved and a toast shown; otherwise nothing. -/
def addItem (s : App) (itemObj : Entry) : App :=
  if (s.loadout.find? (fun i => decide (i.id = itemObj.id))).isNone then
    showToast (saveState { s with loadout := s.loadout ++ [itemObj] })
      ("// " ++ itemObj.name ++ " stored in memory")
  else s

/-- The method `removeItem(itemId)`: the entries whose `String(id)` differs from
`String(itemId)` are kept, then the state is saved. -/
def removeItem (s : App) (itemId : Id) : App :=
  saveState { s with
    loadout := s.loadout.filter (fun item => jsString item.id != jsString itemId) }

/-- The method `purgeAll()`. -/
def purgeAll (s : App) : App :=
  showToast (saveState { s with loadout := [] }) "// Loadout purged"

/-- The first part of `checkout()`, up to the call of `fetch`: the two guards, then
the request.  The request is `none` when a guard returned early. -/
def checkoutStart (s : App) : App × Option OrderRequest :=
  if s.loadout.length = 0 then
    (showToast s "// Loadout is empty", none)
  else
    match s.currentUser with
    | none =>
      ({ showToast s "// Please login to deploy" with loginModalActive := true }, none)
    | some _ =>
      let productIds := s.loadout.map (fun i => i.id)
      let req : OrderRequest :=
        { url := API_BASE ++ "/orders"
          authorization := "Bearer " ++ (s.authToken.getD "null")
          productIds := productIds }
      ({ s with requests := s.requests ++ [req] }, some req)

/-- How a run of `checkout()` ends: the state it leaves, and whether the promise it
returned was rejected (an exception nobody caught). -/
structure Finished where
  state : App
  uncaught : Bool
  deriving DecidableEq, Repr

/-- The second part of `checkout()`, from the answer of `fetch` on. -/
def checkoutResume (s : App) : OrderResponse → Finished
  | .rejected => { state := s, uncaught := true }
  | .ok => { state := purgeAll (showToast s "// Order placed! Check your email."), uncaught := false }
  | .error none => { state := s, uncaught := true }
  | .error (some err) =>
    { state := showToast s ("// Error: " ++ err.getD "undefined"), uncaught := false }

/-- The method `checkout()`: `resp` is what the order request is answered with, used
only when the request is made. -/
def checkout (s : App) (resp : OrderResponse) : Finished :=
  match checkoutStart s with
  | (s1, none) => { state := s1, uncaught := false }
  | (s1, some _) => checkoutResume s1 resp

/-- The callback `init` registers with `loadoutRef.on('value', ...)`, run on one
notification: `remote` is `snap.val()`, `none` for `null`.  A value that is there and
whose serialization differs from that of the loadout replaces the loadout and the
stored cart; the UI is redrawn and a toast shown. -/
def onRemoteValue (s : App) (remote : Option (List Entry)) : App :=
  match remote with
  | some r =>
    if jsonStringify r != jsonStringify s.loadout then
      let s1 := { s with loadout := r }
      let s2 := { s1 with
        localStorage := setItem s1.localStorage "cyberGrid_Loadout" (jsonStringify s1.loadout) }
      showToast (updateUI s2) "// Loadout synced from another device"
    else s
  | none => s

/-- The end of `init()`: `updateUI()`, then `setupListeners()`, which binds click
handlers to four buttons and leaves the state alone. -/
def initFinish (s : App) : Finished :=
  { state := updateUI s, uncaught := false }

/-- The method `init()`.  `jsonParse` is `JSON.parse` on the stored cart text, `none`
when it throws; `snapshot` is what the remote store answers the one read with, used
only with a session and a remote store. -/
def init (jsonParse : String → Option (List Entry)) (s : App) (snapshot : Snapshot) :
    Finished :=
  let saved := getItem s.localStorage "cyberGrid_Loadout"
  let parsed : Option (List Entry) :=
    match saved with
    | some text => if text = "" then some [] else jsonParse text
    | none => some []
  match parsed with
  | none => { state := s, uncaught := true }
  | some l =>
    let s1 := { s with loadout := l }
    match s1.currentUser with
    | some u =>
      if s1.firebaseDb then
        let loadoutRef := "loadouts/" ++ jsString u.id
        match snapshot with
        | .rejected => { state := s1, uncaught := true }
        | .val (some fbLoadout) =>
          let s2 := { s1 with loadout := fbLoadout }
          let s3 := { s2 with
            localStorage :=
              setItem s2.localStorage "cyberGrid_Loadout" (jsonStringify s2.loadout) }
          initFinish { s3 with remoteListeners := s3.remoteListeners ++ [loadoutRef] }
        | .val none =>
          let s2 := { s1 with remoteWrites := s1.remoteWrites ++ [(loadoutRef, s1.loadout)] }
          initFinish { s2 with remoteListeners := s2.remoteListeners ++ [loadoutRef] }
      else initFinish s1
    | none => initFinish s1

end LoadoutManager

/-! ## Sequences of cart operations -/

/-- One call on the loadout manager. -/
inductive Op where
  | addItem (itemObj : Entry)
  | removeItem (itemId : Id)
  | purgeAll
  deriving DecidableEq, Repr

/-- The effect of one call. -/
def applyOp (s : App) : Op → App
  | .addItem x => LoadoutManager.addItem s x
  | .removeItem k => LoadoutManager.removeItem s k
  | .purgeAll => LoadoutManager.purgeAll s

/-- The effect of a sequence of calls, made one after the other. -/
def runOps (ops : List Op) (s : App) : App :=
  ops.foldl applyOp s

/-- A freshly started application: nothing stored, nobody logged in. -/
def App.initial : App :=
  { loadout := [], currentUser := none, authToken := none, firebaseDb := false,
    localStorage := [], remoteWrites := [], toasts := [], requests := [],
    loginModalActive := false, uiCount := 0, uiItems := [], remoteListeners := [],
    pathname := "/", protocol := "https:", pushed := [], navigationErrors := [],
    appRoot := some none, scheduledSetups := [] }

/-! ## Reading serializations back -/

/-- The number a run of decimal digits stands for, continuing from `acc`. -/
def digitsValue (l : List Char) (acc : Nat) : Nat :=
  l.foldl (fun a c => 10 * a + (c.toNat - 48)) acc

/-- A character that is a decimal digit. -/
def IsDigit (c : Char) : Prop := 48 ≤ c.toNat ∧ c.toNat ≤ 57

/-- The value of one lower-case hexadecimal digit. -/
def hexValue (h : Char) : Nat :=
  if h.toNat < 58 then h.toNat - 48 else h.toNat - 87

/-- Reading back one escaped character from the head of a text: the character
`jsonEscapeChar` was given, and the rest of the text. -/
def unescapeHead : List Char → Option (Char × List Char)
  | [] => none
  | c :: rest =>
    if c.toNat = 92 then
      match rest with
      | [] => none
      | k :: rest2 =>
        if k.toNat = 34 then some (Char.ofNat 34, rest2)
        else if k.toNat = 92 then some (Char.ofNat 92, rest2)
        else if k = 'b' then some (Char.ofNat 8, rest2)
        else if k = 't' then some (Char.ofNat 9, rest2)
        else if k = 'n' then some (Char.ofNat 10, rest2)
        else if k = 'f' then some (Char.ofNat 12, rest2)
        else if k = 'r' then some (Char.ofNat 13, rest2)
        else
          match rest2 with
          | _ :: _ :: h1 :: h2 :: rest3 =>
            some (Char.ofNat (16 * hexValue h1 + hexValue h2), rest3)
          | _ => none
    else some (c, rest)

/-- The cart `init` reads from `localStorage`: `l0` is what `JSON.parse` makes of the
stored text, or the empty list when nothing (or the empty text) is stored. -/
def PersistedCart (jsonParse : String → Option (List Entry)) (s : App) (l0 : List Entry) :
    Prop :=
  (getItem s.localStorage "cyberGrid_Loadout" = none ∧ l0 = []) ∨
    (getItem s.localStorage "cyberGrid_Loadout" = some "" ∧ l0 = []) ∨
    ∃ text, getItem s.localStorage "cyberGrid_Loadout" = some text ∧ text ≠ "" ∧
      jsonParse text = some l0

/-! ## The reference cart of the specification -/

namespace Reference

/-- Identity of ids as `addItem` tests it: strict equality. -/
def sameStrict (a b : Id) : Bool := decide (a = b)

/-- Identity of ids as `removeItem` tests it: equality of the string forms. -/
def sameString (a b : Id) : Bool := jsString a == jsString b

/-- Reference model, in the words of the specification: add appends the item if
its id is absent.  The cart is an ordered set of entries unique by id; `same` says
when two ids are the same id. -/
def add (same : Id → Id → Bool) (c : List Entry) (x : Entry) : List Entry :=
  if c.any (fun e => same e.id x.id) then c else c ++ [x]

/-- Reference model, in the words of the specification: remove deletes the entry
with that id (the first one met; in a set of unique ids there is no other). -/
def remove (same : Id → Id → Bool) (c : List Entry) (k : Id) : List Entry :=
  c.eraseP (fun e => same e.id k)

/-- Reference model, in the words of the specification: purge clears the cart. -/
def purge (_c : List Entry) : List Entry := []

/-- One operation on the reference cart. -/
def step (same : Id → Id → Bool) (c : List Entry) : Op → List Entry
  | .addItem x => add same c x
  | .removeItem k => remove same c k
  | .purgeAll => purge c

/-- A sequence of operations on the reference cart. -/
def run (same : Id → Id → Bool) (ops : List Op) (c : List Entry) : List Entry :=
  ops.foldl (step same) c

end Reference

/-! ## Strings -/

/-- JavaScript `s.includes(t)`: `t` occurs in `s` as a run of consecutive characters. -/
def includes (s t : String) : Bool :=
  s.toList.tails.any (fun u => t.toList.isPrefixOf u)

/-- JavaScript `s.split(sep)` for a separator of one character, on character lists. -/
def splitChars (sep : Char) : List Char → List (List Char)
  | [] => [[]]
  | c :: cs =>
    if c = sep then [] :: splitChars sep cs
    else
      match splitChars sep cs with
      | h :: t => (c :: h) :: t
      | [] => [[c]]

/-- JavaScript `s.replace(pat, rep)` for a string pattern, on character lists: the
first occurrence of `pat` is replaced. -/
def replaceFirst (pat rep : List Char) : List Char → List Char
  | [] => if pat.isEmpty then rep else []
  | c :: cs =>
    if pat.isPrefixOf (c :: cs) then rep ++ (c :: cs).drop pat.length
    else c :: replaceFirst pat rep cs

/-! ## Router -/

/-- The global function `showToast(msg)`. -/
def showToast (s : App) (msg : String) : App :=
  { s with toasts := s.toasts ++ [msg] }

/-- The constant `routes` of `router`. -/
def routes : List Route :=
  [ { path := "/", view := .viewHome, protected_ := false, admin := false },
    { path := "/asset-store", view := .viewAssetStore, protected_ := false, admin := false },
    { path := "/ai-projects", view := .viewAiProjects, protected_ := false, admin := false },
    { path := "/contact", view := .viewContact, protected_ := false, admin := false },
    { path := "/admin", view := .viewAdmin, protected_ := true, admin := true } ]

/-- The path `router` looks up, `currentPath` after its two adjustments: under the
`file:` protocol the last segment of the pathname decides (`index.html` is `/`, a
first `.html` is cut), and one trailing slash is cut from any path but `/`. -/
def resolvePath (protocol pathname : String) : String :=
  let currentPath :=
    if protocol = "file:" then
      let parts := splitChars '/' pathname.toList
      let popped := String.mk (parts.getLast?.getD [])
      let last := if popped = "" then "index.html" else popped
      if last = "index.html" then "/"
      else "/" ++ String.mk (replaceFirst ".html".toList [] last.toList)
    else pathname
  if currentPath.toList.getLast? = some '/' ∧ currentPath ≠ "/" then
    String.mk currentPath.toList.dropLast
  else currentPath

/-- The home route, `routes[0]`. -/
def homeRoute : Route :=
  { path := "/", view := .viewHome, protected_ := false, admin := false }

/-- The route `router` settles on: `routes.find(r => r.path === currentPath) ||
routes[0]`. -/
def matchRoute (currentPath : String) : Route :=
  (routes.find? (fun r => decide (r.path = currentPath))).getD homeRoute

/-- The state once `history.pushState(null, null, url)` has taken the url. -/
def withUrl (s : App) (url : String) : App :=
  { s with pathname := url, pushed := s.pushed ++ [url] }

/-- The call `history.pushState(null, null, url)` for a url that is an absolute path.
A document opened under the `file:` protocol may not have its path rewritten: there
the call throws a `SecurityError` (`none`) unless the url is the path the document
already has. -/
def pushState (s : App) (url : String) : Option App :=
  if s.protocol = "file:" ∧ url ≠ s.pathname then none else some (withUrl s url)

/-- The state after `history.pushState` threw inside `navigateTo`: neither
`navigateTo` nor `router` catches, so the run of the router ends there, nothing
rendered and no toast shown. -/
def navigationThrew (s : App) : App :=
  { s with navigationErrors := s.navigationErrors ++ ["SecurityError"] }

/-- The part of `router` after the access checks: the markup of the view is put
into `#app-root` and the set-up of the view is scheduled; without `#app-root`
nothing happens. -/
def renderRoute (s : App) (m : Route) : App :=
  match s.appRoot with
  | none => s
  | some _ =>
    { s with appRoot := some (some m.view), scheduledSetups := s.scheduledSetups ++ [m.path] }

/-- The function `router()`.  It calls `navigateTo`, which calls it back; the first
argument bounds the depth of these calls, and `none` says the bound was too small.
A result `some` is the state in which the run ended, be it by a return or by the
exception of `history.pushState`, which is then on record in `navigationErrors`. -/
def router : Nat → App → Option App
  | 0, _ => none
  | fuel + 1, s =>
    let currentPath := resolvePath s.protocol s.pathname
    let m := matchRoute currentPath
    if m.protected_ then
      match s.currentUser with
      | none =>
        match pushState s "/" with
        | none => some (navigationThrew s)
        | some s1 => (router fuel s1).map (fun s2 => showToast s2 "// Please login first")
      | some u =>
        if m.admin && !u.is_admin then
          match pushState s "/" with
          | none => some (navigationThrew s)
          | some s1 => (router fuel s1).map (fun s2 => showToast s2 "// Admin access only")
        else some (renderRoute s m)
    else some (renderRoute s m)

/-- The function `navigateTo(url)`: push the url, then run the router; when the push
throws, the router is not run. -/
def navigateTo (fuel : Nat) (s : App) (url : String) : Option App :=
  match pushState s url with
  | none => some (navigationThrew s)
  | some s1 => router fuel s1

/-! ## Catalog grids -/

/-- The entries `renderProjectGrid` keeps, its variable `filtered`: all of them for
the filter `all`, else those whose category includes the filter. -/
def filteredProjects (projects : List CatalogItem) (filter : String) : List CatalogItem :=
  if filter = "all" then projects else projects.filter (fun p => includes p.category filter)

/-- The entries `renderAiGrid` keeps, its variable `filtered`: all of them for the
filter `all`, else those whose category is the filter. -/
def filteredAiProjects (aiProjects : List CatalogItem) (filter : String) : List CatalogItem :=
  if filter = "all" then aiProjects else aiProjects.filter (fun p => decide (p.category = filter))

/-- The common tail of both grid renderers: the first `page * itemsPerPage` entries
become the cards, and the load-more button, if there is one, is hidden when no more
entries are left. -/
def renderGrid (filtered : List CatalogItem) (page : Nat) (dom : GridDom) : GridDom :=
  match dom.container with
  | none => dom
  | some _ =>
    let itemsPerPage := 9
    let paginated := filtered.take (page * itemsPerPage)
    { container := some paginated
      loadMore := dom.loadMore.map
        (fun _ => if filtered.length ≤ page * itemsPerPage then "none" else "inline-block") }

/-- The function `renderProjectGrid(containerId, filter, page)` on the global
`projects`; `dom` is the container of that id with the button `#load-more-btn`. -/
def renderProjectGrid (projects : List CatalogItem) (dom : GridDom) (filter : String)
    (page : Nat) : GridDom :=
  renderGrid (filteredProjects projects filter) page dom

/-- The function `renderAiGrid(containerId, filter, page)` on the global `aiProjects`;
`dom` is the container of that id with the button `#load-more-ai-btn`. -/
def renderAiGrid (aiProjects : List CatalogItem) (dom : GridDom) (filter : String)
    (page : Nat) : GridDom :=
  renderGrid (filteredAiProjects aiProjects filter) page dom

/-- The value `loadData` gives `projects` when the backend cannot be reached. -/
def fallbackProjects : List CatalogItem :=
  [ { id := .num 1, title := "Tic Cat Toe ^4", category := "ue5 cpp", tag := "UE5 / C++",
      img := "https://via.placeholder.com/300x200/b829ea/fff?text=Project+1",
      desc := "A cyberpunk-themed tic-tac-toe game built with UE5 and C++" },
    { id := .num 2, title := "Neural Networks Visualizer", category := "ai python",
      tag := "AI / Python",
      img := "https://via.placeholder.com/300x200/00f0ff/000?text=Project+2",
      desc := "Interactive visualization of neural network training processes" },
    { id := .num 3, title := "Procedural World Generator", category := "ue5 cpp",
      tag := "UE5 / C++",
      img := "https://via.placeholder.com/300x200/b829ea/fff?text=Project+3",
      desc := "Infinite procedurally generated cyberpunk worlds" },
    { id := .num 4, title := "AI Chat System", category := "ai python", tag := "AI / Python",
      img := "https://via.placeholder.com/300x200/00f0ff/000?text=Project+4",
      desc := "Machine learning-powered conversational AI" },
    { id := .num 5, title := "Physics Engine", category := "cpp", tag := "C++",
      img := "https://via.placeholder.com/300x200/fcee0a/000?text=Project+5",
      desc := "High-performance physics simulation engine" },
    { id := .num 6, title := "Game Optimization Tool", category := "ue5 cpp",
      tag := "UE5 / C++",
      img := "https://via.placeholder.com/300x200/b829ea/fff?text=Project+6",
      desc := "Performance profiling and optimization suite" },
    { id := .num 7, title := "Computer Vision Module", category := "ai python",
      tag := "AI / Python",
      img := "https://via.placeholder.com/300x200/00ff66/000?text=Project+7",
      desc := "Real-time object detection and tracking system" },
    { id := .num 8, title := "Shader Library", category := "cpp", tag := "C++",
      img := "https://via.placeholder.com/300x200/fcee0a/000?text=Project+8",
      desc := "Collection of advanced rendering shaders" },
    { id := .num 9, title := "Data Mining Suite", category := "ai python",
      tag := "AI / Python",
      img := "https://via.placeholder.com/300x200/00f0ff/000?text=Project+9",
      desc := "Advanced data extraction and analysis tools" } ]

/-- The value `loadData` gives `aiProjects` when the backend cannot be reached. -/
def fallbackAiProjects : List CatalogItem :=
  [ { id := .num 101, title := "GPT Fine-tuning Framework", category := "models",
      tag := "Models",
      img := "https://via.placeholder.com/300x200/00f0ff/000?text=AI+Project+1",
      desc := "Framework for fine-tuning language models" },
    { id := .num 102, title := "ImageNet Classifier", category := "models", tag := "Models",
      img := "https://via.placeholder.com/300x200/00f0ff/000?text=AI+Project+2",
      desc := "Deep learning image classification system" },
    { id := .num 103, title := "Anomaly Detection System", category := "tools", tag := "Tools",
      img := "https://via.placeholder.com/300x200/fcee0a/000?text=AI+Project+3",
      desc := "Real-time anomaly detection pipeline" },
    { id := .num 104, title := "Reinforcement Learning Agents", category := "models",
      tag := "Models",
      img := "https://via.placeholder.com/300x200/00f0ff/000?text=AI+Project+4",
      desc := "RL agents for game playing and optimization" },
    { id := .num 105, title := "Time Series Forecasting", category := "datasets",
      tag := "Datasets",
      img := "https://via.placeholder.com/300x200/00ff66/000?text=AI+Project+5",
      desc := "LSTM-based time series prediction models" } ]

/-! ## Catalog loading -/

/-- A record of `modules`: `{ id, title, desc, img }`. -/
structure Module where
  id : Id
  title : String
  desc : String
  img : String
  deriving DecidableEq, Repr

/-- The three global datasets `projects`, `aiProjects` and `modules`. -/
structure Catalog where
  projects : List CatalogItem
  aiProjects : List CatalogItem
  modules : List Module
  deriving DecidableEq, Repr

/-- What one catalog request comes back with: `fetch` rejects, or there is a response
with its `ok` flag and the value `json()` yields, `none` when `json()` rejects. -/
inductive FetchResult (α : Type) where
  | rejected
  | response (ok : Bool) (body : Option α)
  deriving DecidableEq, Repr

/-- The value `loadData` gives `modules` when the backend cannot be reached. -/
def fallbackModules : List Module :=
  [ { id := .num 201, title := "Scene Management",
      desc := "Handle dynamic scene loading and unloading for seamless gameplay",
      img := "https://via.placeholder.com/300x200/b829ea/fff?text=Module+1" },
    { id := .num 202, title := "Character Animation System",
      desc := "Advanced skeletal animation with IK and procedural blending",
      img := "https://via.placeholder.com/300x200/b829ea/fff?text=Module+2" },
    { id := .num 203, title := "Audio Processing Pipeline",
      desc := "Spatial audio, voice processing, and dynamic music system",
      img := "https://via.placeholder.com/300x200/00f0ff/000?text=Module+3" },
    { id := .num 204, title := "Network Replication",
      desc := "Multiplayer state synchronization and prediction framework",
      img := "https://via.placeholder.com/300x200/fcee0a/000?text=Module+4" },
    { id := .num 205, title := "UI/UX Framework",
      desc := "Responsive HUD system with real-time data binding",
      img := "https://via.placeholder.com/300x200/00ff66/000?text=Module+5" },
    { id := .num 206, title := "AI Behavior Trees",
      desc := "Modular behavior system for NPC intelligence",
      img := "https://via.placeholder.com/300x200/b829ea/fff?text=Module+6" } ]

/-- The `try` block of `loadData`: `Promise.all` over the three requests, the test
of the three `ok` flags, then the three assignments, each after its `json()`.  The
result is the datasets at the end of the block, or, as an error, the datasets at the
point where the block threw. -/
def loadDataTry (projRes aiRes : FetchResult (List CatalogItem))
    (modRes : FetchResult (List Module)) (c : Catalog) : Except Catalog Catalog :=
  match projRes, aiRes, modRes with
  | .response projOk projBody, .response aiOk aiBody, .response modOk modBody =>
    if !projOk || !aiOk || !modOk then .error c
    else
      match projBody with
      | none => .error c
      | some p =>
        let c1 := { c with projects := p }
        match aiBody with
        | none => .error c1
        | some a =>
          let c2 := { c1 with aiProjects := a }
          match modBody with
          | none => .error c2
          | some m => .ok { c2 with modules := m }
  | _, _, _ => .error c

/-- The function `loadData()`: the `try` block, and on any throw the `catch` block,
which assigns the three fallback datasets. -/
def loadData (projRes aiRes : FetchResult (List CatalogItem))
    (modRes : FetchResult (List Module)) (c : Catalog) : Catalog :=
  match loadDataTry projRes aiRes modRes c with
  | .ok c1 => c1
  | .error c1 =>
    { c1 with
      projects := fallbackProjects, aiProjects := fallbackAiProjects, modules := fallbackModules }

/-! ## Logout -/

/-- The click handler of `#logout-btn`: token and session are dropped, in memory and
in `localStorage`, the loadout manager is initialised again (by then `currentUser`
is `null`, so `init` reads nothing from the remote store) and a toast is shown.
`updateAuthUI` and the two chatbot lines write to button styles and to the footer
only. -/
def logout (jsonParse : String → Option (List Entry)) (s : App) : App :=
  let s1 := { s with authToken := none, currentUser := none }
  let s2 := { s1 with
    localStorage := removeStored (removeStored s1.localStorage "token") "user" }
  let s3 := (LoadoutManager.init jsonParse s2 (.val none)).state
  showToast s3 "// Disconnected"

/-! ## Item modal -/

/-- The globals `currentProject` and `currentAiProject`, and `#item-modal`: the record
whose fields fill it and whether it carries the class `active`. -/
structure Modal where
  currentProject : Option CatalogItem
  currentAiProject : Option CatalogItem
  shown : Option CatalogItem
  active : Bool
  deriving DecidableEq, Repr

/-- The function `openAiModal(aiId)`: `find` looks for a record whose id is strictly
equal to `aiId`; without one nothing happens. -/
def openAiModal (aiProjects : List CatalogItem) (m : Modal) (aiId : Id) : Modal :=
  match aiProjects.find? (fun p => decide (p.id = aiId)) with
  | none => m
  | some project =>
    { currentAiProject := some project, currentProject := none, shown := some project,
      active := true }

/-- The attribute `data-ai-id` that `renderAiGrid` gives the card of a record: the id
as the template prints it. -/
def dataAiId (proj : CatalogItem) : String :=
  jsString proj.id

/-- The click handler `bindCardClicks` binds to a card, run for a click on the card
`renderAiGrid` made for `proj` (not on its quick-view button): the card has no
`data-project-id`, and a non-empty `data-ai-id` is passed to `openAiModal` as the
string it is. -/
def clickAiCard (aiProjects : List CatalogItem) (m : Modal) (proj : CatalogItem) : Modal :=
  let aiId := dataAiId proj
  if aiId ≠ "" then openAiModal aiProjects m (.str aiId) else m

/-! ## Chat assistant -/

namespace HolographicCat

/-- The reply to a greeting. -/
def greetingReply (username : String) : String :=
  "Meow, " ++ username ++ "! How can I assist your cyber‑operations today?"

/-- The reply about products. -/
def assetReply : String :=
  "We have many digital assets. You can browse them in the Database section."

/-- The reply about prices. -/
def priceReply : String := "Prices vary. Check the product details in the store."

/-- The reply about the assistant. -/
def identityReply : String :=
  "I am your holographic cat assistant, embedded in the Cyber‑Grid."

/-- The reply to the easter egg. -/
def secretReply : String := "You found me! Try the Konami code for a surprise."

/-- The reply when no keyword occurs. -/
def defaultReply : String :=
  "I'm not sure about that. But I'm just a cat, not a supercomputer! 😸"

/-- The method `generateReply(userInput)`.  `toLowerCase` is the string method of
that name; the second component says whether `playEasterEgg()` was called. -/
def generateReply (toLowerCase : String → String) (username userInput : String) :
    String × Bool :=
  let lower := toLowerCase userInput
  if includes lower "hello" || includes lower "hi" then (greetingReply username, false)
  else if includes lower "product" || includes lower "asset" then (assetReply, false)
  else if includes lower "price" || includes lower "cost" then (priceReply, false)
  else if includes lower "who are you" then (identityReply, false)
  else if includes lower "easter egg" || includes lower "secret" then (secretReply, true)
  else (defaultReply, false)

/-- One rule of the assistant, in the words of the specification: a rule matches when
one of its keywords occurs in the lower-cased input, and then gives its reply. -/
structure ReplyRule where
  keywords : List String
  reply : String
  deriving DecidableEq, Repr

/-- Reference model, in the words of the specification: the ordered list of rules. -/
def replyRules (username : String) : List ReplyRule :=
  [ { keywords := ["hello", "hi"], reply := greetingReply username },
    { keywords := ["product", "asset"], reply := assetReply },
    { keywords := ["price", "cost"], reply := priceReply },
    { keywords := ["who are you"], reply := identityReply },
    { keywords := ["easter egg", "secret"], reply := secretReply } ]

/-- Reference model, in the words of the specification: the rules are tried in
order, the first one that matches wins, and without a match the default reply is
given. -/
def firstMatchReply (rules : List ReplyRule) (lower : String) : String :=
  match rules.find? (fun r => r.keywords.any (fun k => includes lower k)) with
  | some r => r.reply
  | none => defaultReply

end HolographicCat

/-! ## Konami code -/

/-- The constant `konamiCode`: up, up, down, down, left, right, left, right, B, A. -/
def konamiCode : List Nat := [38, 38, 40, 40, 37, 39, 37, 39, 66, 65]

/-- The global `konamiIndex`, and how often the easter egg has been activated. -/
structure Konami where
  konamiIndex : Nat
  activations : Nat
  deriving DecidableEq, Repr

/-- The `keydown` handler, for a key press with this `keyCode`. -/
def keydown (k : Konami) (keyCode : Nat) : Konami :=
  if konamiCode[k.konamiIndex]? = some keyCode then
    let k1 := { k with konamiIndex := k.konamiIndex + 1 }
    if k1.konamiIndex = konamiCode.length then
      { konamiIndex := 0, activations := k1.activations + 1 }
    else k1
  else { k with konamiIndex := 0 }

/-- The handler run on a stream of key presses, first key first. -/
def keydowns (k : Konami) (keys : List Nat) : Konami :=
  keys.foldl keydown k

end CyberGrid

/-! # Theorems -/

namespace CyberGrid

open LoadoutManager

/-! ## What each method does to the loadout -/

theorem getItem_setItem (st : Storage) (key value : String) :
    getItem (setItem st key value) key = some value := by
  simp [getItem, setItem]

theorem saveState_loadout (s : App) : (saveState s).loadout = s.loadout := by
  unfold saveState updateUI
  dsimp only
  split
  · split <;> rfl
  · rfl

theorem saveState_toasts (s : App) : (saveState s).toasts = s.toasts := by
  unfold saveState updateUI
  dsimp only
  split
  · split <;> rfl
  · rfl

theorem saveState_requests (s : App) : (saveState s).requests = s.requests := by
  unfold saveState updateUI
  dsimp only
  split
  · split <;> rfl
  · rfl

theorem saveState_localStorage (s : App) :
    (saveState s).localStorage =
      setItem s.localStorage "cyberGrid_Loadout" (jsonStringify s.loadout) := by
  unfold saveState updateUI
  dsimp only
  split
  · split <;> rfl
  · rfl

theorem find_isNone_iff (l : List Entry) (k : Id) :
    (l.find? (fun i => decide (i.id = k))).isNone = true ↔ ∀ e ∈ l, e.id ≠ k := by
  simp [Option.isNone_iff_eq_none]

theorem addItem_loadout (s : App) (x : Entry) :
    (addItem s x).loadout =
      if ∃ e ∈ s.loadout, e.id = x.id then s.loadout else s.loadout ++ [x] := by
  unfold addItem
  by_cases h : ∃ e ∈ s.loadout, e.id = x.id
  · have hn : ¬ (s.loadout.find? (fun i => decide (i.id = x.id))).isNone = true := by
      rw [find_isNone_iff]; push_neg; exact h
    rw [if_neg hn, if_pos h]
  · have hn : (s.loadout.find? (fun i => decide (i.id = x.id))).isNone = true := by
      rw [find_isNone_iff]; push_neg at h; exact h
    rw [if_pos hn, if_neg h]
    simp [LoadoutManager.showToast, saveState_loadout]

theorem removeItem_loadout (s : App) (k : Id) :
    (removeItem s k).loadout =
      s.loadout.filter (fun item => jsString item.id != jsString k) := by
  simp [removeItem, saveState_loadout]

theorem purgeAll_loadout (s : App) : (purgeAll s).loadout = [] := by
  simp [purgeAll, LoadoutManager.showToast, saveState_loadout]

theorem purgeAll_localStorage (s : App) :
    (purgeAll s).localStorage = setItem s.localStorage "cyberGrid_Loadout" (jsonStringify []) := by
  simp [purgeAll, LoadoutManager.showToast, saveState_localStorage]

theorem purgeAll_toasts (s : App) : (purgeAll s).toasts = s.toasts ++ ["// Loadout purged"] := by
  simp [purgeAll, LoadoutManager.showToast, saveState_toasts]

theorem purgeAll_requests (s : App) : (purgeAll s).requests = s.requests := by
  simp [purgeAll, LoadoutManager.showToast, saveState_requests]

/-! ## C2, C8, C9, C10: the three mutators one by one -/

/-- C2: when the loadout already holds an entry whose id is strictly equal to the
id of the item, `addItem` changes nothing at all: the whole application state is
the one before, so the loadout has the same entries in the same order, nothing is
written to `localStorage` or to the remote store, and no toast is shown. -/
theorem addItem_present_unchanged (s : App) (itemObj : Entry)
    (h : ∃ e ∈ s.loadout, e.id = itemObj.id) :
    addItem s itemObj = s ∧
      (addItem s itemObj).loadout = s.loadout ∧
      (addItem s itemObj).localStorage = s.localStorage ∧
      (addItem s itemObj).remoteWrites = s.remoteWrites ∧
      (addItem s itemObj).toasts = s.toasts := by
  have hn : ¬ (s.loadout.find? (fun i => decide (i.id = itemObj.id))).isNone = true := by
    rw [find_isNone_iff]; push_neg; exact h
  have hs : addItem s itemObj = s := by
    unfold addItem
    rw [if_neg hn]
  rw [hs]
  exact ⟨rfl, rfl, rfl, rfl, rfl⟩

/-- Witness of C2: the loadout holds id 1, and an item with id 1 and another name is
added. -/
theorem addItem_present_unchanged_witness :
    (∃ e ∈ ({ App.initial with loadout := [⟨.num 1, "a", "t"⟩] } : App).loadout,
        e.id = (⟨.num 1, "b", "u"⟩ : Entry).id) ∧
      addItem { App.initial with loadout := [⟨.num 1, "a", "t"⟩] } ⟨.num 1, "b", "u"⟩ =
        { App.initial with loadout := [⟨.num 1, "a", "t"⟩] } :=
  ⟨⟨⟨.num 1, "a", "t"⟩, by simp, rfl⟩,
    (addItem_present_unchanged { App.initial with loadout := [⟨.num 1, "a", "t"⟩] }
      ⟨.num 1, "b", "u"⟩ ⟨⟨.num 1, "a", "t"⟩, by simp, rfl⟩).1⟩

/-- C8: `removeItem(itemId)` leaves exactly the entries whose `String(id)` differs
from `String(itemId)`, in their original relative order: the new loadout is the old
one filtered by that test, no entry that matches remains, every entry that does not
match is kept as often as it occurred, and the new loadout is a sublist of the old. -/
theorem removeItem_keeps_exactly_others (s : App) (itemId : Id) :
    (removeItem s itemId).loadout =
        s.loadout.filter (fun e => decide (jsString e.id ≠ jsString itemId)) ∧
      (∀ e ∈ (removeItem s itemId).loadout, jsString e.id ≠ jsString itemId) ∧
      (∀ e ∈ s.loadout, jsString e.id ≠ jsString itemId →
        e ∈ (removeItem s itemId).loadout) ∧
      (∀ e, jsString e.id ≠ jsString itemId →
        (removeItem s itemId).loadout.count e = s.loadout.count e) ∧
      (removeItem s itemId).loadout.Sublist s.loadout := by
  rw [removeItem_loadout]
  refine ⟨?_, ?_, ?_, ?_, ?_⟩
  · congr 1
    funext e
    by_cases hk : jsString e.id = jsString itemId <;> simp [hk]
  · intro e he
    simpa using (List.mem_filter.mp he).2
  · intro e he hne
    exact List.mem_filter.mpr ⟨he, by simpa using hne⟩
  · intro e hne
    rw [List.count_filter]
    simpa using hne
  · exact List.filter_sublist _

/-- C9: when no entry of the loadout has an id strictly equal to the id of the item,
`addItem` yields the old loadout with the item appended: one entry more, the item
last, and every earlier position holding what it held. -/
theorem addItem_absent_appends (s : App) (itemObj : Entry)
    (h : ∀ e ∈ s.loadout, e.id ≠ itemObj.id) :
    (addItem s itemObj).loadout = s.loadout ++ [itemObj] ∧
      (addItem s itemObj).loadout.length = s.loadout.length + 1 ∧
      (addItem s itemObj).loadout.getLast? = some itemObj ∧
      (addItem s itemObj).loadout.take s.loadout.length = s.loadout := by
  have hl : (addItem s itemObj).loadout = s.loadout ++ [itemObj] := by
    rw [addItem_loadout, if_neg]
    push_neg
    exact h
  rw [hl]
  refine ⟨rfl, by simp, by simp, by simp⟩

/-- Witness of C9: the loadout holds id 1 and an item with id 2 is added. -/
theorem addItem_absent_appends_witness :
    (addItem { App.initial with loadout := [⟨.num 1, "a", "t"⟩] } ⟨.num 2, "b", "u"⟩).loadout =
      [⟨.num 1, "a", "t"⟩, ⟨.num 2, "b", "u"⟩] :=
  (addItem_absent_appends { App.initial with loadout := [⟨.num 1, "a", "t"⟩] }
    ⟨.num 2, "b", "u"⟩ (by decide)).1

/-- C10: after `purgeAll` the loadout is empty and the value stored in `localStorage`
under `cyberGrid_Loadout` is the serialization of the empty list, the text `[]`. -/
theorem purgeAll_empties_and_persists (s : App) :
    (purgeAll s).loadout = [] ∧
      getItem (purgeAll s).localStorage "cyberGrid_Loadout" = some (jsonStringify []) ∧
      jsonStringify [] = "[]" := by
  refine ⟨purgeAll_loadout s, ?_, by decide⟩
  rw [purgeAll_localStorage, getItem_setItem]

/-! ## C3: ids stay unique -/

theorem applyOp_nodup (s : App) (op : Op) (h : (s.loadout.map (fun e => e.id)).Nodup) :
    ((applyOp s op).loadout.map (fun e => e.id)).Nodup := by
  cases op with
  | addItem x =>
    show ((addItem s x).loadout.map (fun e => e.id)).Nodup
    rw [addItem_loadout]
    split
    · exact h
    · next hx =>
      push_neg at hx
      rw [List.map_append, List.map_singleton]
      refine List.Nodup.append h (List.nodup_singleton _) ?_
      intro a ha hb
      rw [List.mem_singleton] at hb
      obtain ⟨e, he, rfl⟩ := List.mem_map.mp ha
      exact hx e he hb
  | removeItem k =>
    show ((removeItem s k).loadout.map (fun e => e.id)).Nodup
    rw [removeItem_loadout]
    exact h.sublist ((List.filter_sublist _).map _)
  | purgeAll =>
    show ((purgeAll s).loadout.map (fun e => e.id)).Nodup
    rw [purgeAll_loadout]
    exact List.nodup_nil

theorem runOps_nodup (ops : List Op) :
    ∀ s : App, (s.loadout.map (fun e => e.id)).Nodup →
      ((runOps ops s).loadout.map (fun e => e.id)).Nodup := by
  induction ops with
  | nil => intro s h; exact h
  | cons op ops ih =>
    intro s h
    exact ih (applyOp s op) (applyOp_nodup s op h)

/-- C3: every loadout reached from an empty loadout by a sequence of `addItem`,
`removeItem` and `purgeAll` calls has no two entries with the same id: the list of
its ids has no repetition (ids compared as `addItem` compares them, by `===`), so
entries at two different positions never carry equal ids. -/
theorem reachable_loadout_ids_unique (ops : List Op) (s : App) (h0 : s.loadout = []) :
    ((runOps ops s).loadout.map (fun e => e.id)).Nodup ∧
      ∀ i j : Nat, i < j → ∀ a b : Entry,
        (runOps ops s).loadout[i]? = some a → (runOps ops s).loadout[j]? = some b →
          a.id ≠ b.id := by
  have hnd : ((runOps ops s).loadout.map (fun e => e.id)).Nodup :=
    runOps_nodup ops s (by rw [h0]; exact List.nodup_nil)
  refine ⟨hnd, ?_⟩
  intro i j hij a b ha hb hab
  have hpw := List.pairwise_iff_getElem.mp hnd
  obtain ⟨hi, hia⟩ := List.getElem?_eq_some_iff.mp ha
  obtain ⟨hj, hjb⟩ := List.getElem?_eq_some_iff.mp hb
  have := hpw i j (by simpa using hi) (by simpa using hj) hij
  simp [hia, hjb] at this
  exact this hab

/-- Witness of C3: the same id is added twice, then another one. -/
theorem reachable_loadout_ids_unique_witness :
    ((runOps [.addItem ⟨.num 1, "a", "t"⟩, .addItem ⟨.num 1, "b", "t"⟩,
        .addItem ⟨.num 2, "c", "t"⟩] App.initial).loadout.map (fun e => e.id)).Nodup :=
  (reachable_loadout_ids_unique [.addItem ⟨.num 1, "a", "t"⟩, .addItem ⟨.num 1, "b", "t"⟩,
    .addItem ⟨.num 2, "c", "t"⟩] App.initial rfl).1

/-! ## C1: the loadout against the reference cart -/

theorem eraseP_eq_filter_of_nodup (k : String) :
    ∀ l : List Entry, (l.map (fun e => jsString e.id)).Nodup →
      l.eraseP (fun e => jsString e.id == k) = l.filter (fun e => jsString e.id != k) := by
  intro l
  induction l with
  | nil => intro _; rfl
  | cons a l ih =>
    intro h
    rw [List.map_cons, List.nodup_cons] at h
    by_cases hk : jsString a.id = k
    · have hfil : l.filter (fun e => jsString e.id != k) = l := by
        rw [List.filter_eq_self]
        intro e he
        have hne : jsString e.id ≠ k := by
          intro hek
          exact h.1 (List.mem_map.mpr ⟨e, he, by rw [hek, hk]⟩)
        simpa using hne
      simp [List.eraseP_cons, hk, hfil]
    · simp [List.eraseP_cons, hk, ih h.2]

/-- One operation does the same to the loadout and to the reference cart keyed by
string form, as long as the ids in play come from a set on which the string form
decides identity; and the loadout stays within that set, unique by string form. -/
theorem applyOp_agrees (A : Id → Prop)
    (hA : ∀ a b, A a → A b → jsString a = jsString b → a = b)
    (s : App) (op : Op) (hop : ∀ x, op = Op.addItem x → A x.id)
    (hl : ∀ e ∈ s.loadout, A e.id)
    (hnd : (s.loadout.map (fun e => jsString e.id)).Nodup) :
    (applyOp s op).loadout = Reference.step Reference.sameString s.loadout op ∧
      (∀ e ∈ (applyOp s op).loadout, A e.id) ∧
      ((applyOp s op).loadout.map (fun e => jsString e.id)).Nodup := by
  cases op with
  | addItem x =>
    have hx : A x.id := hop x rfl
    have hiff : (∃ e ∈ s.loadout, e.id = x.id) ↔
        (s.loadout.any (fun e => Reference.sameString e.id x.id) = true) := by
      rw [List.any_eq_true]
      constructor
      · rintro ⟨e, he, hid⟩
        exact ⟨e, he, by simp [Reference.sameString, hid]⟩
      · rintro ⟨e, he, hid⟩
        refine ⟨e, he, hA _ _ (hl e he) hx ?_⟩
        simpa [Reference.sameString] using hid
    show (addItem s x).loadout = Reference.add Reference.sameString s.loadout x ∧
      (∀ e ∈ (addItem s x).loadout, A e.id) ∧
      ((addItem s x).loadout.map (fun e => jsString e.id)).Nodup
    rw [addItem_loadout]
    unfold Reference.add
    by_cases hex : ∃ e ∈ s.loadout, e.id = x.id
    · rw [if_pos hex, if_pos (hiff.mp hex)]
      exact ⟨rfl, hl, hnd⟩
    · rw [if_neg hex, if_neg (fun h => hex (hiff.mpr h))]
      refine ⟨rfl, ?_, ?_⟩
      · intro e he
        rcases List.mem_append.mp he with he | he
        · exact hl e he
        · rw [List.mem_singleton] at he
          rw [he]; exact hx
      · rw [List.map_append, List.map_singleton]
        refine List.Nodup.append hnd (List.nodup_singleton _) ?_
        intro a ha hb
        rw [List.mem_singleton] at hb
        obtain ⟨e, he, rfl⟩ := List.mem_map.mp ha
        exact hex ⟨e, he, hA _ _ (hl e he) hx hb⟩
  | removeItem k =>
    show (removeItem s k).loadout = Reference.remove Reference.sameString s.loadout k ∧
      (∀ e ∈ (removeItem s k).loadout, A e.id) ∧
      ((removeItem s k).loadout.map (fun e => jsString e.id)).Nodup
    rw [removeItem_loadout]
    refine ⟨?_, ?_, ?_⟩
    · exact (eraseP_eq_filter_of_nodup (jsString k) s.loadout hnd).symm
    · intro e he
      exact hl e (List.mem_filter.mp he).1
    · exact hnd.sublist ((List.filter_sublist _).map _)
  | purgeAll =>
    show (purgeAll s).loadout = Reference.purge s.loadout ∧
      (∀ e ∈ (purgeAll s).loadout, A e.id) ∧
      ((purgeAll s).loadout.map (fun e => jsString e.id)).Nodup
    rw [purgeAll_loadout]
    exact ⟨rfl, by simp, List.nodup_nil⟩

theorem runOps_agrees (A : Id → Prop)
    (hA : ∀ a b, A a → A b → jsString a = jsString b → a = b) (ops : List Op) :
    ∀ s : App, (∀ x, Op.addItem x ∈ ops → A x.id) → (∀ e ∈ s.loadout, A e.id) →
      (s.loadout.map (fun e => jsString e.id)).Nodup →
      (runOps ops s).loadout = Reference.run Reference.sameString ops s.loadout ∧
        ((runOps ops s).loadout.map (fun e => jsString e.id)).Nodup := by
  induction ops with
  | nil => intro s _ _ hnd; exact ⟨rfl, hnd⟩
  | cons op ops ih =>
    intro s hops hl hnd
    obtain ⟨h1, h2, h3⟩ := applyOp_agrees A hA s op
      (fun x hx => hops x (by rw [hx]; exact List.mem_cons_self _ _)) hl hnd
    have := ih (applyOp s op) (fun x hx => hops x (List.mem_cons_of_mem _ hx)) h2 h3
    rw [h1] at this
    exact this

/-- C1, as the code has it: take any sequence of `addItem`, `removeItem` and
`purgeAll` calls, made on an empty loadout, in which two added items whose ids have
the same string form have the same id (on the added ids `===` and equality of
string forms agree; the ids passed to `removeItem` are free).  Then the final loadout is what
the same sequence makes of an empty reference cart, an ordered set of entries
unique by the string form of the id (add appends if no entry has that id, remove
deletes the entry with that id, purge clears), and its entries are unique by that
string form. -/
theorem runOps_refines_reference (ops : List Op) (s : App) (h0 : s.loadout = [])
    (hinj : ∀ x y, Op.addItem x ∈ ops → Op.addItem y ∈ ops →
      jsString x.id = jsString y.id → x.id = y.id) :
    (runOps ops s).loadout = Reference.run Reference.sameString ops [] ∧
      ((runOps ops s).loadout.map (fun e => jsString e.id)).Nodup := by
  have h := runOps_agrees (fun a => ∃ x, Op.addItem x ∈ ops ∧ x.id = a)
    (by
      rintro a b ⟨x, hx, rfl⟩ ⟨y, hy, rfl⟩ hab
      exact hinj x y hx hy hab)
    ops s (fun x hx => ⟨x, hx, rfl⟩) (by rw [h0]; simp) (by rw [h0]; simp)
  rw [h0] at h
  exact h

/-- Witness of C1: numeric ids are added, one of them twice, and one is removed
through the string a remove button carries. -/
theorem runOps_refines_reference_witness :
    (runOps [.addItem ⟨.num 1, "a", "t"⟩, .addItem ⟨.num 2, "b", "t"⟩,
        .addItem ⟨.num 1, "c", "t"⟩, .removeItem (.str "1")] App.initial).loadout =
      [⟨.num 2, "b", "t"⟩] :=
  (runOps_refines_reference [.addItem ⟨.num 1, "a", "t"⟩, .addItem ⟨.num 2, "b", "t"⟩,
    .addItem ⟨.num 1, "c", "t"⟩, .removeItem (.str "1")] App.initial rfl
    (by
      intro x y hx hy
      simp only [List.mem_cons, List.mem_singleton, List.not_mem_nil, Op.addItem.injEq,
        or_false, reduceCtorEq] at hx hy
      rcases hx with rfl | rfl | rfl <;> rcases hy with rfl | rfl | rfl <;> decide)).1.trans
    (by decide)

/-- C1 refuted as stated: whichever of the two identities of the code the reference
cart is keyed by, one sequence ends differently.  Keyed by strict equality: after
`addItem` of id 1, `removeItem("1")` empties the loadout, the reference cart keeps
the entry.  Keyed by string form: after `addItem` of id 1, `addItem` of id "1"
gives the loadout a second entry, the reference cart keeps one.  And no other
identity of ids does better: for none does the reference cart end as the loadout
does on every sequence. -/
theorem runOps_differs_from_reference :
    (runOps [.addItem ⟨.num 1, "a", "t"⟩, .removeItem (.str "1")] App.initial).loadout ≠
        Reference.run Reference.sameStrict
          [.addItem ⟨.num 1, "a", "t"⟩, .removeItem (.str "1")] [] ∧
      (runOps [.addItem ⟨.num 1, "a", "t"⟩, .addItem ⟨.str "1", "b", "t"⟩]
          App.initial).loadout ≠
        Reference.run Reference.sameString
          [.addItem ⟨.num 1, "a", "t"⟩, .addItem ⟨.str "1", "b", "t"⟩] [] ∧
      ¬ ∃ same : Id → Id → Bool, ∀ ops : List Op,
        (runOps ops App.initial).loadout = Reference.run same ops [] := by
  refine ⟨by decide, by decide, ?_⟩
  rintro ⟨same, h⟩
  have h1 := h [.addItem ⟨.num 1, "a", "t"⟩, .removeItem (.str "1")]
  have h2 := h [.addItem ⟨.num 1, "a", "t"⟩, .addItem ⟨.str "1", "b", "t"⟩]
  have c1 : (runOps [.addItem ⟨.num 1, "a", "t"⟩, .removeItem (.str "1")]
      App.initial).loadout = [] := by decide
  have c2 : (runOps [.addItem ⟨.num 1, "a", "t"⟩, .addItem ⟨.str "1", "b", "t"⟩]
      App.initial).loadout = [⟨.num 1, "a", "t"⟩, ⟨.str "1", "b", "t"⟩] := by decide
  rw [c1] at h1
  rw [c2] at h2
  cases hb : same (.num 1) (.str "1") with
  | false =>
    simp [Reference.run, Reference.step, Reference.add, Reference.remove,
      List.eraseP_cons, hb] at h1
  | true =>
    simp [Reference.run, Reference.step, Reference.add, hb] at h2

/-! ## C4 to C7: checkout -/

theorem checkoutStart_session (s : App) (u : User) (hne : s.loadout ≠ [])
    (hu : s.currentUser = some u) :
    checkoutStart s =
      ({ s with requests := s.requests ++
          [{ url := API_BASE ++ "/orders"
             authorization := "Bearer " ++ (s.authToken.getD "null")
             productIds := s.loadout.map (fun i => i.id) }] },
        some { url := API_BASE ++ "/orders"
               authorization := "Bearer " ++ (s.authToken.getD "null")
               productIds := s.loadout.map (fun i => i.id) }) := by
  unfold checkoutStart
  have hlen : ¬ s.loadout.length = 0 := by
    intro h
    exact hne (List.length_eq_zero.mp h)
  rw [if_neg hlen, hu]

theorem checkout_session (s : App) (u : User) (resp : OrderResponse) (hne : s.loadout ≠ [])
    (hu : s.currentUser = some u) :
    checkout s resp =
      checkoutResume { s with requests := s.requests ++
          [{ url := API_BASE ++ "/orders"
             authorization := "Bearer " ++ (s.authToken.getD "null")
             productIds := s.loadout.map (fun i => i.id) }] } resp := by
  unfold checkout
  rw [checkoutStart_session s u hne hu]

theorem checkoutResume_requests (s : App) (resp : OrderResponse) :
    (checkoutResume s resp).state.requests = s.requests := by
  cases resp with
  | rejected => rfl
  | ok => simp [checkoutResume, purgeAll_requests, LoadoutManager.showToast]
  | error body =>
    cases body with
    | none => rfl
    | some err => rfl

/-- C4: when the loadout is empty or `currentUser` is `null`, `checkout` passes
nothing to `fetch` (the log of requests is as before, whatever the backend would
have answered), leaves the loadout as it was and shows one toast: `// Loadout is
empty` for an empty loadout, `// Please login to deploy` otherwise, and then the
login prompt is opened.  Nothing is persisted and the call ends normally. -/
theorem checkout_guarded (s : App) (resp : OrderResponse)
    (h : s.loadout = [] ∨ s.currentUser = none) :
    (checkoutStart s).2 = none ∧
      (checkout s resp).state.requests = s.requests ∧
      (checkout s resp).state.loadout = s.loadout ∧
      (checkout s resp).state.toasts = s.toasts ++
        [if s.loadout = [] then "// Loadout is empty" else "// Please login to deploy"] ∧
      (s.loadout ≠ [] → (checkout s resp).state.loginModalActive = true) ∧
      (checkout s resp).state.localStorage = s.localStorage ∧
      (checkout s resp).state.remoteWrites = s.remoteWrites ∧
      (checkout s resp).uncaught = false := by
  by_cases hl : s.loadout = []
  · have hlen : s.loadout.length = 0 := by rw [hl]; rfl
    have hs : checkoutStart s = (LoadoutManager.showToast s "// Loadout is empty", none) := by
      unfold checkoutStart
      rw [if_pos hlen]
    unfold checkout
    rw [hs, if_pos hl]
    exact ⟨rfl, rfl, rfl, rfl, fun hne => absurd hl hne, rfl, rfl, rfl⟩
  · have hu : s.currentUser = none := h.resolve_left hl
    have hlen : ¬ s.loadout.length = 0 := fun hz => hl (List.length_eq_zero.mp hz)
    have hs : checkoutStart s =
        ({ LoadoutManager.showToast s "// Please login to deploy" with loginModalActive := true }, none) := by
      unfold checkoutStart
      rw [if_neg hlen, hu]
    unfold checkout
    rw [hs, if_neg hl]
    exact ⟨rfl, rfl, rfl, rfl, fun _ => rfl, rfl, rfl, rfl⟩

/-- Witness of C4: a loadout with one entry and nobody logged in. -/
theorem checkout_guarded_witness :
    (checkout { App.initial with loadout := [⟨.num 1, "a", "t"⟩] } OrderResponse.ok).state.requests
        = [] ∧
      (checkout { App.initial with loadout := [⟨.num 1, "a", "t"⟩] } OrderResponse.ok).state.toasts
        = ["// Please login to deploy"] :=
  ⟨(checkout_guarded { App.initial with loadout := [⟨.num 1, "a", "t"⟩] } OrderResponse.ok
      (Or.inr rfl)).2.1,
    (checkout_guarded { App.initial with loadout := [⟨.num 1, "a", "t"⟩] } OrderResponse.ok
      (Or.inr rfl)).2.2.2.1⟩

/-- C5: with a non-empty loadout and a session, `checkout` passes exactly one
request to `fetch`, addressed to the order endpoint, and its `productIds` are the ids
of the loadout entries, in loadout order and as many as the loadout has entries. -/
theorem checkout_submits_loadout_ids (s : App) (u : User) (resp : OrderResponse)
    (hne : s.loadout ≠ []) (hu : s.currentUser = some u) :
    ∃ req : OrderRequest,
      (checkoutStart s).2 = some req ∧
      (checkout s resp).state.requests = s.requests ++ [req] ∧
      req.url = API_BASE ++ "/orders" ∧
      req.productIds = s.loadout.map (fun e => e.id) ∧
      req.productIds.length = s.loadout.length ∧
      ∀ i : Nat, req.productIds[i]? = (s.loadout[i]?).map (fun e => e.id) := by
  refine ⟨{ url := API_BASE ++ "/orders"
            authorization := "Bearer " ++ (s.authToken.getD "null")
            productIds := s.loadout.map (fun i => i.id) }, ?_, ?_, rfl, rfl, ?_, ?_⟩
  · rw [checkoutStart_session s u hne hu]
  · rw [checkout_session s u resp hne hu, checkoutResume_requests]
  · simp
  · intro i
    simp

/-- Witness of C5: two entries, a session, the backend answers ok. -/
theorem checkout_submits_loadout_ids_witness :
    ∃ req : OrderRequest,
      (checkoutStart { App.initial with
          loadout := [⟨.num 4, "a", "t"⟩, ⟨.num 2, "b", "t"⟩]
          currentUser := some ⟨.num 7, "u", "m", false⟩ }).2 = some req ∧
      req.productIds = [.num 4, .num 2] := by
  obtain ⟨req, h1, _, _, h4, _⟩ := checkout_submits_loadout_ids
    { App.initial with
      loadout := [⟨.num 4, "a", "t"⟩, ⟨.num 2, "b", "t"⟩]
      currentUser := some ⟨.num 7, "u", "m", false⟩ }
    ⟨.num 7, "u", "m", false⟩ OrderResponse.ok (by decide) rfl
  exact ⟨req, h1, h4⟩

/-- C6: with a non-empty loadout and a session, when the order request is answered
with an ok response, `checkout` leaves the loadout empty and the cart stored in
`localStorage` the serialization of the empty list, and shows two toasts, `// Order
placed! Check your email.` and `// Loadout purged`; the call ends normally. -/
theorem checkout_ok_purges (s : App) (u : User) (hne : s.loadout ≠ [])
    (hu : s.currentUser = some u) :
    (checkout s OrderResponse.ok).state.loadout = [] ∧
      getItem (checkout s OrderResponse.ok).state.localStorage "cyberGrid_Loadout" =
        some (jsonStringify []) ∧
      jsonStringify [] = "[]" ∧
      (checkout s OrderResponse.ok).state.toasts =
        s.toasts ++ ["// Order placed! Check your email.", "// Loadout purged"] ∧
      (checkout s OrderResponse.ok).uncaught = false := by
  rw [checkout_session s u OrderResponse.ok hne hu]
  refine ⟨?_, ?_, by decide, ?_, rfl⟩
  · simp [checkoutResume, purgeAll_loadout]
  · simp [checkoutResume, purgeAll_localStorage, getItem_setItem]
  · simp [checkoutResume, purgeAll_toasts, LoadoutManager.showToast]

/-- Witness of C6: one entry, a session, an ok response. -/
theorem checkout_ok_purges_witness :
    (checkout { App.initial with
        loadout := [⟨.num 4, "a", "t"⟩]
        currentUser := some ⟨.num 7, "u", "m", false⟩ } OrderResponse.ok).state.loadout = [] :=
  (checkout_ok_purges { App.initial with
      loadout := [⟨.num 4, "a", "t"⟩]
      currentUser := some ⟨.num 7, "u", "m", false⟩ } ⟨.num 7, "u", "m", false⟩
    (by decide) rfl).1

/-- C7, as the code has it: with a non-empty loadout and a session, when the order
request is answered with an error response whose body carries the message `msg`,
`checkout` leaves the loadout unchanged and shows one toast, the fixed text
`// Error: ` followed by `msg` unaltered; the call ends normally. -/
theorem checkout_error_toast (s : App) (u : User) (msg : String) (hne : s.loadout ≠ [])
    (hu : s.currentUser = some u) :
    (checkout s (OrderResponse.error (some (some msg)))).state.loadout = s.loadout ∧
      (checkout s (OrderResponse.error (some (some msg)))).state.toasts =
        s.toasts ++ ["// Error: " ++ msg] ∧
      (checkout s (OrderResponse.error (some (some msg)))).uncaught = false := by
  rw [checkout_session s u _ hne hu]
  exact ⟨rfl, rfl, rfl⟩

/-- Witness of C7: one entry, a session, the backend answers `Out of stock`. -/
theorem checkout_error_toast_witness :
    (checkout { App.initial with
        loadout := [⟨.num 4, "a", "t"⟩]
        currentUser := some ⟨.num 7, "u", "m", false⟩ }
      (OrderResponse.error (some (some "Out of stock")))).state.toasts =
        [] ++ ["// Error: " ++ "Out of stock"] :=
  (checkout_error_toast { App.initial with
      loadout := [⟨.num 4, "a", "t"⟩]
      currentUser := some ⟨.num 7, "u", "m", false⟩ } ⟨.num 7, "u", "m", false⟩
    "Out of stock" (by decide) rfl).2.1

/-- C7 refuted as stated: the backend answers `Out of stock`; the toast shown is
`// Error: Out of stock`, and no toast on screen is the text `Out of stock` itself. -/
theorem checkout_error_toast_not_verbatim :
    (checkout { App.initial with
        loadout := [⟨.num 4, "a", "t"⟩]
        currentUser := some ⟨.num 7, "u", "m", false⟩ }
      (OrderResponse.error (some (some "Out of stock")))).state.toasts =
        ["// Error: Out of stock"] ∧
      "Out of stock" ∉ (checkout { App.initial with
        loadout := [⟨.num 4, "a", "t"⟩]
        currentUser := some ⟨.num 7, "u", "m", false⟩ }
      (OrderResponse.error (some (some "Out of stock")))).state.toasts := by
  decide

/-! ## C11: what a mutation persists -/

theorem saveState_remoteWrites (s : App) :
    (saveState s).remoteWrites =
      match s.currentUser with
      | some u =>
        if s.firebaseDb then s.remoteWrites ++ [("loadouts/" ++ jsString u.id, s.loadout)]
        else s.remoteWrites
      | none => s.remoteWrites := by
  unfold saveState updateUI
  dsimp only
  split
  · split <;> rfl
  · rfl

theorem saveState_persists (s : App) :
    getItem (saveState s).localStorage "cyberGrid_Loadout" =
        some (jsonStringify (saveState s).loadout) ∧
      (∀ u : User, s.currentUser = some u → s.firebaseDb = true →
        (saveState s).remoteWrites =
          s.remoteWrites ++ [("loadouts/" ++ jsString u.id, (saveState s).loadout)]) ∧
      (s.currentUser = none ∨ s.firebaseDb = false →
        (saveState s).remoteWrites = s.remoteWrites) := by
  refine ⟨?_, ?_, ?_⟩
  · rw [saveState_localStorage, saveState_loadout, getItem_setItem]
  · intro u hu hdb
    rw [saveState_remoteWrites, saveState_loadout, hu]
    simp [hdb]
  · intro h
    rw [saveState_remoteWrites]
    rcases h with h | h
    · rw [h]
    · cases hc : s.currentUser with
      | none => rfl
      | some u => simp [h]

theorem applyOp_eq_saveState (s : App) (op : Op)
    (hadd : ∀ x, op = Op.addItem x → ∀ e ∈ s.loadout, e.id ≠ x.id) :
    ∃ l : List Entry,
      (applyOp s op = saveState { s with loadout := l } ∨
        ∃ msg, applyOp s op = LoadoutManager.showToast (saveState { s with loadout := l }) msg) := by
  cases op with
  | addItem x =>
    refine ⟨s.loadout ++ [x], Or.inr ⟨"// " ++ x.name ++ " stored in memory", ?_⟩⟩
    have hn : (s.loadout.find? (fun i => decide (i.id = x.id))).isNone = true := by
      rw [find_isNone_iff]; exact hadd x rfl
    show addItem s x = _
    unfold addItem
    rw [if_pos hn]
  | removeItem k =>
    exact ⟨s.loadout.filter (fun item => jsString item.id != jsString k), Or.inl rfl⟩
  | purgeAll =>
    exact ⟨[], Or.inr ⟨"// Loadout purged", rfl⟩⟩

/-- C11: after a cart mutation (an `addItem` whose id is not yet in the loadout, any
`removeItem`, any `purgeAll`) the text stored in `localStorage` under
`cyberGrid_Loadout` is the serialization of the loadout in memory; with a session and
a remote store, exactly one write goes to the remote store, to the location
`loadouts/<user id>`, and its value is that same loadout, so the text stored
locally is the serialization of the value last written remotely; without a session
or without a remote store nothing is written remotely. -/
theorem mutation_persists_local_and_remote (s : App) (op : Op)
    (hadd : ∀ x, op = Op.addItem x → ∀ e ∈ s.loadout, e.id ≠ x.id) :
    getItem (applyOp s op).localStorage "cyberGrid_Loadout" =
        some (jsonStringify (applyOp s op).loadout) ∧
      (∀ u : User, s.currentUser = some u → s.firebaseDb = true →
        (applyOp s op).remoteWrites =
            s.remoteWrites ++ [("loadouts/" ++ jsString u.id, (applyOp s op).loadout)] ∧
          ∃ w, (applyOp s op).remoteWrites.getLast? = some w ∧
            w.1 = "loadouts/" ++ jsString u.id ∧
            getItem (applyOp s op).localStorage "cyberGrid_Loadout" =
              some (jsonStringify w.2)) ∧
      (s.currentUser = none ∨ s.firebaseDb = false →
        (applyOp s op).remoteWrites = s.remoteWrites) := by
  obtain ⟨l, hl⟩ := applyOp_eq_saveState s op hadd
  have hp := saveState_persists { s with loadout := l }
  have key : getItem (applyOp s op).localStorage "cyberGrid_Loadout" =
        some (jsonStringify (applyOp s op).loadout) ∧
      (∀ u : User, s.currentUser = some u → s.firebaseDb = true →
        (applyOp s op).remoteWrites =
          s.remoteWrites ++ [("loadouts/" ++ jsString u.id, (applyOp s op).loadout)]) ∧
      (s.currentUser = none ∨ s.firebaseDb = false →
        (applyOp s op).remoteWrites = s.remoteWrites) := by
    rcases hl with hl | ⟨msg, hl⟩
    · rw [hl]; exact hp
    · rw [hl]; exact hp
  refine ⟨key.1, ?_, key.2.2⟩
  intro u hu hdb
  have hw := key.2.1 u hu hdb
  refine ⟨hw, ("loadouts/" ++ jsString u.id, (applyOp s op).loadout), ?_, rfl, key.1⟩
  rw [hw]
  simp

/-- Witness of C11: a logged-in user with a remote store adds an item. -/
theorem mutation_persists_local_and_remote_witness :
    getItem (applyOp { App.initial with
        currentUser := some ⟨.num 7, "u", "m", false⟩, firebaseDb := true }
      (Op.addItem ⟨.num 1, "a", "t"⟩)).localStorage "cyberGrid_Loadout" =
      some (jsonStringify (applyOp { App.initial with
        currentUser := some ⟨.num 7, "u", "m", false⟩, firebaseDb := true }
      (Op.addItem ⟨.num 1, "a", "t"⟩)).loadout) :=
  (mutation_persists_local_and_remote { App.initial with
      currentUser := some ⟨.num 7, "u", "m", false⟩, firebaseDb := true }
    (Op.addItem ⟨.num 1, "a", "t"⟩) (by intro x _ e he; simp [App.initial] at he)).1

/-! ## C12: reconciliation at start -/

theorem init_of_persisted (jsonParse : String → Option (List Entry)) (s : App)
    (l0 : List Entry) (h : PersistedCart jsonParse s l0) (snapshot : Snapshot) :
    init jsonParse s snapshot =
      match s.currentUser with
      | some u =>
        if s.firebaseDb then
          match snapshot with
          | .rejected => { state := { s with loadout := l0 }, uncaught := true }
          | .val (some fbLoadout) =>
            initFinish { s with
              loadout := fbLoadout
              localStorage :=
                setItem s.localStorage "cyberGrid_Loadout" (jsonStringify fbLoadout)
              remoteListeners := s.remoteListeners ++ ["loadouts/" ++ jsString u.id] }
          | .val none =>
            initFinish { s with
              loadout := l0
              remoteWrites := s.remoteWrites ++ [("loadouts/" ++ jsString u.id, l0)]
              remoteListeners := s.remoteListeners ++ ["loadouts/" ++ jsString u.id] }
        else initFinish { s with loadout := l0 }
      | none => initFinish { s with loadout := l0 } := by
  have hparsed : (match getItem s.localStorage "cyberGrid_Loadout" with
      | some text => if text = "" then some [] else jsonParse text
      | none => some []) = some l0 := by
    rcases h with ⟨h1, h2⟩ | ⟨h1, h2⟩ | ⟨text, h1, h2, h3⟩
    · rw [h1, h2]
    · rw [h1, h2]; rfl
    · rw [h1]; simp only [if_neg h2, h3]
  unfold init
  simp only [hparsed]

/-- C12: `init`, on a state whose stored cart is `l0` (what `JSON.parse` makes of the
text stored under `cyberGrid_Loadout`, the empty list if nothing is stored).  With a
session and a remote store that answers the read: if the remote store holds a cart,
the loadout becomes that cart and the text stored locally becomes its serialization,
and nothing is written remotely; if it holds none, the loadout is `l0`, the local
store is untouched and `l0` is written to `loadouts/<user id>`.  Without a session or
without a remote store the loadout is `l0` and nothing is written anywhere.  In all
these cases `init` ends normally. -/
theorem init_reconciles (jsonParse : String → Option (List Entry)) (s : App)
    (l0 : List Entry) (h : PersistedCart jsonParse s l0) :
    (∀ (u : User) (remote : List Entry), s.currentUser = some u → s.firebaseDb = true →
        (init jsonParse s (.val (some remote))).state.loadout = remote ∧
        getItem (init jsonParse s (.val (some remote))).state.localStorage
          "cyberGrid_Loadout" = some (jsonStringify remote) ∧
        (init jsonParse s (.val (some remote))).state.remoteWrites = s.remoteWrites ∧
        (init jsonParse s (.val (some remote))).uncaught = false) ∧
      (∀ u : User, s.currentUser = some u → s.firebaseDb = true →
        (init jsonParse s (.val none)).state.loadout = l0 ∧
        (init jsonParse s (.val none)).state.localStorage = s.localStorage ∧
        (init jsonParse s (.val none)).state.remoteWrites =
          s.remoteWrites ++ [("loadouts/" ++ jsString u.id, l0)] ∧
        (init jsonParse s (.val none)).uncaught = false) ∧
      (s.currentUser = none ∨ s.firebaseDb = false → ∀ snapshot : Snapshot,
        (init jsonParse s snapshot).state.loadout = l0 ∧
        (init jsonParse s snapshot).state.localStorage = s.localStorage ∧
        (init jsonParse s snapshot).state.remoteWrites = s.remoteWrites ∧
        (init jsonParse s snapshot).uncaught = false) := by
  refine ⟨?_, ?_, ?_⟩
  · intro u remote hu hdb
    rw [init_of_persisted jsonParse s l0 h, hu]
    simp only [hdb, if_true]
    exact ⟨rfl, getItem_setItem _ _ _, rfl, rfl⟩
  · intro u hu hdb
    rw [init_of_persisted jsonParse s l0 h, hu]
    simp only [hdb, if_true]
    exact ⟨rfl, rfl, rfl, rfl⟩
  · intro hno snapshot
    rw [init_of_persisted jsonParse s l0 h]
    rcases hno with hno | hno
    · rw [hno]
      exact ⟨rfl, rfl, rfl, rfl⟩
    · cases hu : s.currentUser with
      | none => exact ⟨rfl, rfl, rfl, rfl⟩
      | some u =>
        simp only [hno]
        exact ⟨rfl, rfl, rfl, rfl⟩

/-- Witness of C12: a stored cart with one entry, a session, a remote store holding
another cart. -/
theorem init_reconciles_witness :
    (init (fun text => if text = jsonStringify [⟨.num 1, "a", "t"⟩] then
          some [⟨.num 1, "a", "t"⟩] else none)
        { App.initial with
          localStorage := [("cyberGrid_Loadout", jsonStringify [⟨.num 1, "a", "t"⟩])]
          currentUser := some ⟨.num 7, "u", "m", false⟩, firebaseDb := true }
        (.val (some [⟨.num 2, "b", "t"⟩]))).state.loadout = [⟨.num 2, "b", "t"⟩] ∧
      (init (fun text => if text = jsonStringify [⟨.num 1, "a", "t"⟩] then
          some [⟨.num 1, "a", "t"⟩] else none)
        { App.initial with
          localStorage := [("cyberGrid_Loadout", jsonStringify [⟨.num 1, "a", "t"⟩])]
          currentUser := some ⟨.num 7, "u", "m", false⟩, firebaseDb := true }
        (.val none)).state.loadout = [⟨.num 1, "a", "t"⟩] :=
  ⟨((init_reconciles _ _ [⟨.num 1, "a", "t"⟩]
      (Or.inr (Or.inr ⟨jsonStringify [⟨.num 1, "a", "t"⟩], by decide, by decide,
        by decide⟩))).1 ⟨.num 7, "u", "m", false⟩ [⟨.num 2, "b", "t"⟩] rfl rfl).1,
    ((init_reconciles _ _ [⟨.num 1, "a", "t"⟩]
      (Or.inr (Or.inr ⟨jsonStringify [⟨.num 1, "a", "t"⟩], by decide, by decide,
        by decide⟩))).2.1 ⟨.num 7, "u", "m", false⟩ rfl rfl).1⟩

/-! ## The serialization of a loadout determines the loadout -/

theorem digitChar_toNat (k : Nat) (hk : k < 10) : (Nat.digitChar k).toNat = 48 + k := by
  interval_cases k <;> rfl

theorem toDigitsCore_value (fuel : Nat) :
    ∀ (n : Nat) (ds : List Char), n < fuel →
      digitsValue (Nat.toDigitsCore 10 fuel n ds) 0 = digitsValue ds n := by
  induction fuel with
  | zero => intro n ds h; omega
  | succ fuel ih =>
    intro n ds h
    have hd : (Nat.digitChar (n % 10)).toNat - 48 = n % 10 := by
      rw [digitChar_toNat _ (Nat.mod_lt _ (by decide))]; omega
    unfold Nat.toDigitsCore
    dsimp only
    split
    · next h0 =>
      have : n % 10 = n := by omega
      simp only [digitsValue, List.foldl_cons, hd]
      rw [this]; simp
    · next h0 =>
      rw [ih (n / 10) _ (by omega)]
      simp only [digitsValue, List.foldl_cons, hd]
      congr 1
      omega

theorem toDigits_injective (n m : Nat) (h : Nat.toDigits 10 n = Nat.toDigits 10 m) : n = m := by
  have hn := toDigitsCore_value (n + 1) n [] (by omega)
  have hm := toDigitsCore_value (m + 1) m [] (by omega)
  unfold Nat.toDigits at h
  rw [h, hm] at hn
  simpa [digitsValue] using hn.symm

theorem toDigitsCore_digits (fuel : Nat) :
    ∀ (n : Nat) (ds : List Char), (∀ c ∈ ds, IsDigit c) →
      ∀ c ∈ Nat.toDigitsCore 10 fuel n ds, IsDigit c := by
  induction fuel with
  | zero => intro n ds h; exact h
  | succ fuel ih =>
    intro n ds h
    have hd : IsDigit (Nat.digitChar (n % 10)) := by
      unfold IsDigit
      rw [digitChar_toNat _ (Nat.mod_lt _ (by decide))]
      have := Nat.mod_lt n (show 10 > 0 by decide)
      omega
    have hcons : ∀ c ∈ Nat.digitChar (n % 10) :: ds, IsDigit c := by
      intro c hc
      rcases List.mem_cons.mp hc with rfl | hc
      · exact hd
      · exact h c hc
    unfold Nat.toDigitsCore
    dsimp only
    split
    · exact hcons
    · exact ih _ _ hcons

theorem toDigits_digits (n : Nat) : ∀ c ∈ Nat.toDigits 10 n, IsDigit c :=
  toDigitsCore_digits (n + 1) n [] (by simp)

theorem toDigitsCore_ne_nil (fuel : Nat) :
    ∀ (n : Nat) (ds : List Char), ds ≠ [] ∨ 0 < fuel → Nat.toDigitsCore 10 fuel n ds ≠ [] := by
  induction fuel with
  | zero => intro n ds h; rcases h with h | h; exact h; omega
  | succ fuel ih =>
    intro n ds _
    unfold Nat.toDigitsCore
    dsimp only
    split
    · simp
    · exact ih _ _ (Or.inl (by simp))

theorem toDigits_ne_nil (n : Nat) : Nat.toDigits 10 n ≠ [] :=
  toDigitsCore_ne_nil (n + 1) n [] (Or.inr (by omega))

/-- The characters of `String(n)` for an integer `n`. -/
theorem int_toString_data (n : Int) :
    (toString n).data =
      match n with
      | Int.ofNat m => Nat.toDigits 10 m
      | Int.negSucc m => '-' :: Nat.toDigits 10 (m + 1) := by
  cases n with
  | ofNat m => rfl
  | negSucc m => rfl

theorem int_toString_injective (a b : Int) (h : toString a = toString b) : a = b := by
  have hd : (toString a).data = (toString b).data := by rw [h]
  rw [int_toString_data, int_toString_data] at hd
  cases a with
  | ofNat m =>
    cases b with
    | ofNat k => exact congrArg Int.ofNat (toDigits_injective m k hd)
    | negSucc k =>
      exfalso
      dsimp only at hd
      have hm := toDigits_digits m '-' (by rw [hd]; simp)
      unfold IsDigit at hm
      revert hm; decide
  | negSucc m =>
    cases b with
    | ofNat k =>
      exfalso
      dsimp only at hd
      have hm := toDigits_digits k '-' (by rw [← hd]; simp)
      unfold IsDigit at hm
      revert hm; decide
    | negSucc k =>
      dsimp only at hd
      have := toDigits_injective (m + 1) (k + 1) (List.cons_injective hd)
      have : m = k := by omega
      rw [this]


theorem char_eq_of_toNat (c d : Char) (h : c.toNat = d.toNat) : c = d := by
  apply Char.ext
  apply UInt32.ext
  exact h

theorem hexValue_hexDigit (n : Nat) (h : n < 16) : hexValue (hexDigit n) = n := by
  interval_cases n <;> rfl

theorem char_ofNat_toNat_small (c : Char) (h : c.toNat < 32) : Char.ofNat c.toNat = c := by
  apply char_eq_of_toNat
  generalize c.toNat = n at h
  interval_cases n <;> rfl

theorem unescapeHead_escape (c : Char) (X : List Char) :
    unescapeHead (jsonEscapeChar c ++ X) = some (c, X) := by
  unfold jsonEscapeChar
  split_ifs with h1 h2 h3 h4 h5 h6 h7 h8
  · have : c = Char.ofNat 34 := char_eq_of_toNat _ _ (by rw [h1]; rfl)
    subst this; rfl
  · have : c = Char.ofNat 92 := char_eq_of_toNat _ _ (by rw [h2]; rfl)
    subst this; rfl
  · have : c = Char.ofNat 8 := char_eq_of_toNat _ _ (by rw [h3]; rfl)
    subst this; rfl
  · have : c = Char.ofNat 9 := char_eq_of_toNat _ _ (by rw [h4]; rfl)
    subst this; rfl
  · have : c = Char.ofNat 10 := char_eq_of_toNat _ _ (by rw [h5]; rfl)
    subst this; rfl
  · have : c = Char.ofNat 12 := char_eq_of_toNat _ _ (by rw [h6]; rfl)
    subst this; rfl
  · have : c = Char.ofNat 13 := char_eq_of_toNat _ _ (by rw [h7]; rfl)
    subst this; rfl
  · have hv : 16 * hexValue (hexDigit (c.toNat / 16)) + hexValue (hexDigit (c.toNat % 16))
        = c.toNat := by
      rw [hexValue_hexDigit _ (by omega), hexValue_hexDigit _ (by omega)]
      omega
    have hc := char_ofNat_toNat_small c h8
    simp only [List.cons_append, List.nil_append, unescapeHead]
    simp +decide [hv, hc]
  · simp only [List.cons_append, List.nil_append, unescapeHead, if_neg h2]

theorem jsonEscapeChar_prefix (c d : Char) (X Y : List Char)
    (h : jsonEscapeChar c ++ X = jsonEscapeChar d ++ Y) : c = d ∧ X = Y := by
  have h1 := unescapeHead_escape c X
  rw [h, unescapeHead_escape d Y] at h1
  simp only [Option.some.injEq, Prod.mk.injEq] at h1
  exact ⟨h1.1.symm, h1.2.symm⟩

theorem jsonEscapeChar_head (c : Char) :
    ∃ hd tl, jsonEscapeChar c = hd :: tl ∧ hd.toNat ≠ 34 := by
  unfold jsonEscapeChar
  split_ifs with h1 h2 h3 h4 h5 h6 h7 h8
  all_goals first
    | exact ⟨_, _, rfl, by decide⟩
    | exact ⟨_, _, rfl, h1⟩

theorem quoteBody_prefix :
    ∀ (s t : List Char) (X Y : List Char),
      (s.map jsonEscapeChar).flatten ++ Char.ofNat 34 :: X =
        (t.map jsonEscapeChar).flatten ++ Char.ofNat 34 :: Y → s = t ∧ X = Y := by
  intro s
  induction s with
  | nil =>
    intro t X Y h
    cases t with
    | nil => simpa using h
    | cons d t =>
      exfalso
      obtain ⟨hd, tl, he, hne⟩ := jsonEscapeChar_head d
      simp only [List.map_nil, List.flatten_nil, List.nil_append, List.map_cons,
        List.flatten_cons, he, List.cons_append, List.cons.injEq] at h
      exact hne (by rw [← h.1]; rfl)
  | cons c s ih =>
    intro t X Y h
    cases t with
    | nil =>
      exfalso
      obtain ⟨hd, tl, he, hne⟩ := jsonEscapeChar_head c
      simp only [List.map_nil, List.flatten_nil, List.nil_append, List.map_cons,
        List.flatten_cons, he, List.cons_append, List.cons.injEq] at h
      exact hne (by rw [h.1]; rfl)
    | cons d t =>
      simp only [List.map_cons, List.flatten_cons, List.append_assoc] at h
      obtain ⟨hcd, hrest⟩ := jsonEscapeChar_prefix c d _ _ h
      obtain ⟨hst, hXY⟩ := ih t X Y hrest
      exact ⟨by rw [hcd, hst], hXY⟩

theorem jsonQuote_data (s : String) :
    (jsonQuote s).data =
      Char.ofNat 34 :: ((s.toList.map jsonEscapeChar).flatten ++ [Char.ofNat 34]) := by
  simp [jsonQuote]

theorem jsonQuote_prefix (s t : String) (X Y : List Char)
    (h : (jsonQuote s).data ++ X = (jsonQuote t).data ++ Y) : s = t ∧ X = Y := by
  rw [jsonQuote_data, jsonQuote_data] at h
  simp only [List.cons_append, List.append_assoc, List.singleton_append, List.cons.injEq,
    true_and] at h
  obtain ⟨h1, h2⟩ := quoteBody_prefix _ _ _ _ h
  exact ⟨String.ext h1, h2⟩

theorem terminated_cancel (t : Char) :
    ∀ (a b X Y : List Char), (∀ c ∈ a, c ≠ t) → (∀ c ∈ b, c ≠ t) →
      a ++ t :: X = b ++ t :: Y → a = b ∧ X = Y := by
  intro a
  induction a with
  | nil =>
    intro b X Y _ hb h
    cases b with
    | nil => simpa using h
    | cons d b =>
      exfalso
      simp only [List.nil_append, List.cons_append, List.cons.injEq] at h
      exact hb d (List.mem_cons_self _ _) h.1.symm
  | cons c a ih =>
    intro b X Y ha hb h
    cases b with
    | nil =>
      exfalso
      simp only [List.nil_append, List.cons_append, List.cons.injEq] at h
      exact ha c (List.mem_cons_self _ _) h.1
    | cons d b =>
      simp only [List.cons_append, List.cons.injEq] at h
      obtain ⟨h1, h2⟩ := ih b X Y (fun x hx => ha x (List.mem_cons_of_mem _ hx))
        (fun x hx => hb x (List.mem_cons_of_mem _ hx)) h.2
      exact ⟨by rw [h.1, h1], h2⟩

theorem int_toString_chars (n : Int) : ∀ c ∈ (toString n).data, IsDigit c ∨ c = '-' := by
  intro c hc
  rw [int_toString_data] at hc
  cases n with
  | ofNat m => exact Or.inl (toDigits_digits m c hc)
  | negSucc m =>
    rcases List.mem_cons.mp hc with h | h
    · exact Or.inr h
    · exact Or.inl (toDigits_digits _ c h)

theorem int_toString_ne_nil (n : Int) : (toString n).data ≠ [] := by
  rw [int_toString_data]
  cases n with
  | ofNat m => exact toDigits_ne_nil m
  | negSucc m => simp

theorem int_toString_no (n : Int) (t : Char) (ht : ¬ IsDigit t) (hm : t ≠ '-') :
    ∀ c ∈ (toString n).data, c ≠ t := by
  intro c hc hct
  rcases int_toString_chars n c hc with h | h
  · exact ht (hct ▸ h)
  · exact hm (hct ▸ h)

theorem jsonId_prefix (a b : Id) (X Y : List Char)
    (h : (jsonId a).data ++ ',' :: X = (jsonId b).data ++ ',' :: Y) : a = b ∧ X = Y := by
  have hcomma : ¬ IsDigit ',' := by unfold IsDigit; decide
  have hquote : ¬ IsDigit (Char.ofNat 34) := by unfold IsDigit; decide
  cases a with
  | num n =>
    cases b with
    | num m =>
      obtain ⟨h1, h2⟩ := terminated_cancel ',' _ _ X Y
        (int_toString_no n ',' hcomma (by decide)) (int_toString_no m ',' hcomma (by decide)) h
      exact ⟨by rw [int_toString_injective n m (String.ext h1)], h2⟩
    | str t =>
      exfalso
      simp only [jsonId] at h
      rw [jsonQuote_data] at h
      cases hd : (toString n).data with
      | nil => exact int_toString_ne_nil n hd
      | cons c tl =>
        rw [hd] at h
        simp only [List.cons_append, List.cons.injEq] at h
        exact int_toString_no n (Char.ofNat 34) hquote (by decide) c
          (by rw [hd]; exact List.mem_cons_self _ _) h.1
  | str s =>
    cases b with
    | num m =>
      exfalso
      simp only [jsonId] at h
      rw [jsonQuote_data] at h
      cases hd : (toString m).data with
      | nil => exact int_toString_ne_nil m hd
      | cons c tl =>
        rw [hd] at h
        simp only [List.cons_append, List.cons.injEq] at h
        exact int_toString_no m (Char.ofNat 34) hquote (by decide) c
          (by rw [hd]; exact List.mem_cons_self _ _) h.1.symm
    | str t =>
      obtain ⟨h1, h2⟩ := jsonQuote_prefix s t _ _ h
      simp only [List.cons.injEq, true_and] at h2
      exact ⟨by rw [h1], h2⟩

theorem jsonEntry_data (e : Entry) :
    (jsonEntry e).data =
      "\x7b".data ++ ((jsonQuote "id").data ++ (":".data ++ ((jsonId e.id).data ++
        (',' :: ((jsonQuote "name").data ++ (":".data ++ ((jsonQuote e.name).data ++
          (",".data ++ ((jsonQuote "type").data ++ (":".data ++ ((jsonQuote e.type).data ++
            "\x7d".data))))))))))) := by
  simp only [jsonEntry, String.data_append, List.append_assoc]
  rfl

theorem jsonEntry_prefix (e f : Entry) (X Y : List Char)
    (h : (jsonEntry e).data ++ X = (jsonEntry f).data ++ Y) : e = f ∧ X = Y := by
  rw [jsonEntry_data, jsonEntry_data] at h
  simp only [List.append_assoc, List.cons_append, List.nil_append, List.cons.injEq,
    true_and] at h
  have h1 := List.append_cancel_left h
  simp only [List.cons.injEq, true_and] at h1
  obtain ⟨hid, h2⟩ := jsonId_prefix _ _ _ _ h1
  have h3 := List.append_cancel_left h2
  simp only [List.cons.injEq, true_and] at h3
  obtain ⟨hname, h4⟩ := jsonQuote_prefix _ _ _ _ h3
  simp only [List.cons.injEq, true_and] at h4
  have h5 := List.append_cancel_left h4
  simp only [List.cons.injEq, true_and] at h5
  obtain ⟨htype, h6⟩ := jsonQuote_prefix _ _ _ _ h5
  simp only [List.cons.injEq, true_and] at h6
  refine ⟨?_, h6⟩
  cases e
  cases f
  simp only [Entry.mk.injEq]
  exact ⟨hid, hname, htype⟩

theorem intercalate_go_data (sep : String) :
    ∀ (l : List String) (acc : String),
      (String.intercalate.go acc sep l).data =
        acc.data ++ (l.map (fun a => sep.data ++ a.data)).flatten := by
  intro l
  induction l with
  | nil => intro acc; simp [String.intercalate.go]
  | cons a l ih =>
    intro acc
    simp only [String.intercalate.go, ih, String.data_append, List.map_cons,
      List.flatten_cons, List.append_assoc]

theorem jsonStringify_data_nil : (jsonStringify []).data = ['[', ']'] := by decide

theorem jsonStringify_data_cons (e : Entry) (l : List Entry) :
    (jsonStringify (e :: l)).data =
      '[' :: ((jsonEntry e).data ++
        ((l.map (fun a => ',' :: (jsonEntry a).data)).flatten ++ [']'])) := by
  simp only [jsonStringify, List.map_cons, String.intercalate, intercalate_go_data,
    String.data_append, List.map_map, List.append_assoc]
  rfl

theorem entriesTail_prefix :
    ∀ (l m : List Entry) (X Y : List Char),
      (l.map (fun a => ',' :: (jsonEntry a).data)).flatten ++ ']' :: X =
        (m.map (fun a => ',' :: (jsonEntry a).data)).flatten ++ ']' :: Y → l = m ∧ X = Y := by
  intro l
  induction l with
  | nil =>
    intro m X Y h
    cases m with
    | nil => simpa using h
    | cons f m =>
      exfalso
      simp only [List.map_nil, List.flatten_nil, List.nil_append, List.map_cons,
        List.flatten_cons, List.cons_append, List.cons.injEq] at h
      exact absurd h.1 (by decide)
  | cons e l ih =>
    intro m X Y h
    cases m with
    | nil =>
      exfalso
      simp only [List.map_nil, List.flatten_nil, List.nil_append, List.map_cons,
        List.flatten_cons, List.cons_append, List.cons.injEq] at h
      exact absurd h.1 (by decide)
    | cons f m =>
      simp only [List.map_cons, List.flatten_cons, List.cons_append, List.append_assoc,
        List.cons.injEq, true_and] at h
      obtain ⟨hef, hrest⟩ := jsonEntry_prefix e f _ _ h
      obtain ⟨hlm, hXY⟩ := ih m X Y hrest
      exact ⟨by rw [hef, hlm], hXY⟩

theorem jsonEntry_head (e : Entry) : ∃ tl, (jsonEntry e).data = '\x7b' :: tl := by
  rw [jsonEntry_data]
  exact ⟨_, rfl⟩

/-- Two loadouts with the same serialization are the same loadout. -/
theorem jsonStringify_injective (l m : List Entry) (h : jsonStringify l = jsonStringify m) :
    l = m := by
  have hd : (jsonStringify l).data = (jsonStringify m).data := by rw [h]
  cases l with
  | nil =>
    cases m with
    | nil => rfl
    | cons f m =>
      exfalso
      obtain ⟨tl, htl⟩ := jsonEntry_head f
      rw [jsonStringify_data_nil, jsonStringify_data_cons, htl] at hd
      simp only [List.cons_append, List.cons.injEq, true_and] at hd
      exact absurd hd.1 (by decide)
  | cons e l =>
    cases m with
    | nil =>
      exfalso
      obtain ⟨tl, htl⟩ := jsonEntry_head e
      rw [jsonStringify_data_nil, jsonStringify_data_cons, htl] at hd
      simp only [List.cons_append, List.cons.injEq, true_and] at hd
      exact absurd hd.1 (by decide)
    | cons f m =>
      rw [jsonStringify_data_cons, jsonStringify_data_cons] at hd
      simp only [List.cons.injEq, true_and] at hd
      obtain ⟨hef, hrest⟩ := jsonEntry_prefix e f _ _ hd
      obtain ⟨hlm, _⟩ := entriesTail_prefix l m [] [] hrest
      rw [hef, hlm]

/-! ## C13: a notification from the remote store -/

/-- C13, as the code has it: a notification that carries a cart `remote` (any value
but `null`).  If `remote` is not the current loadout, the loadout becomes `remote`,
the text stored locally becomes the serialization of `remote`, the UI is redrawn
and the toast `// Loadout synced from another device` is shown; if `remote` is the
current loadout, the state is left as it is.  A notification that carries `null`
leaves the state as it is. -/
theorem onRemoteValue_overwrites_on_difference (s : App) (remote : List Entry) :
    (remote ≠ s.loadout →
        (onRemoteValue s (some remote)).loadout = remote ∧
        getItem (onRemoteValue s (some remote)).localStorage "cyberGrid_Loadout" =
          some (jsonStringify remote) ∧
        (onRemoteValue s (some remote)).uiItems = remote ∧
        (onRemoteValue s (some remote)).toasts =
          s.toasts ++ ["// Loadout synced from another device"]) ∧
      (remote = s.loadout → onRemoteValue s (some remote) = s) ∧
      onRemoteValue s none = s := by
  refine ⟨?_, ?_, rfl⟩
  · intro hne
    have hser : (jsonStringify remote != jsonStringify s.loadout) = true := by
      rw [bne_iff_ne]
      exact fun h => hne (jsonStringify_injective _ _ h)
    unfold onRemoteValue
    simp only [hser, if_true]
    exact ⟨rfl, getItem_setItem _ _ _, rfl, rfl⟩
  · intro heq
    unfold onRemoteValue
    simp [heq]

/-- Witness of C13: the loadout holds id 1 and the notification carries id 2. -/
theorem onRemoteValue_overwrites_on_difference_witness :
    (onRemoteValue { App.initial with loadout := [⟨.num 1, "a", "t"⟩] }
      (some [⟨.num 2, "b", "t"⟩])).loadout = [⟨.num 2, "b", "t"⟩] :=
  ((onRemoteValue_overwrites_on_difference { App.initial with loadout := [⟨.num 1, "a", "t"⟩] }
    [⟨.num 2, "b", "t"⟩]).1 (by decide)).1

/-- C13 refuted as stated: the loadout holds one entry and is stored locally; a
notification arrives whose value is `null` (the cart was deleted remotely), which is
not the current loadout; yet loadout and stored cart stay what they were. -/
theorem onRemoteValue_null_changes_nothing :
    (none : Option (List Entry)) ≠
        some ({ App.initial with
          loadout := [⟨.num 1, "a", "t"⟩]
          localStorage := [("cyberGrid_Loadout", jsonStringify [⟨.num 1, "a", "t"⟩])] } :
            App).loadout ∧
      (onRemoteValue { App.initial with
          loadout := [⟨.num 1, "a", "t"⟩]
          localStorage := [("cyberGrid_Loadout", jsonStringify [⟨.num 1, "a", "t"⟩])] }
        none).loadout = [⟨.num 1, "a", "t"⟩] ∧
      getItem (onRemoteValue { App.initial with
          loadout := [⟨.num 1, "a", "t"⟩]
          localStorage := [("cyberGrid_Loadout", jsonStringify [⟨.num 1, "a", "t"⟩])] }
        none).localStorage "cyberGrid_Loadout" =
        some (jsonStringify [⟨.num 1, "a", "t"⟩]) := by
  decide

/-! ## C14 to C17: the router -/

theorem resolvePath_admin (protocol : String) : resolvePath protocol "/admin" = "/admin" := by
  by_cases h : protocol = "file:"
  · subst h; decide
  · unfold resolvePath
    rw [if_neg h]
    decide

theorem resolvePath_root (protocol : String) : resolvePath protocol "/" = "/" := by
  by_cases h : protocol = "file:"
  · subst h; decide
  · unfold resolvePath
    rw [if_neg h]
    decide

theorem resolvePath_unknown (protocol : String) :
    resolvePath protocol "/unknown" = "/unknown" := by
  by_cases h : protocol = "file:"
  · subst h; decide
  · unfold resolvePath
    rw [if_neg h]
    decide

theorem router_unprotected (fuel : Nat) (s : App)
    (h : (matchRoute (resolvePath s.protocol s.pathname)).protected_ = false) :
    router (fuel + 1) s = some (renderRoute s (matchRoute (resolvePath s.protocol s.pathname))) := by
  unfold router
  simp [h]

theorem router_at_root (fuel : Nat) (s : App) (h : s.pathname = "/") :
    router (fuel + 1) s = some (renderRoute s homeRoute) := by
  have hm : matchRoute (resolvePath s.protocol s.pathname) = homeRoute := by
    rw [h, resolvePath_root]; decide
  rw [router_unprotected fuel s (by rw [hm]; rfl), hm]

theorem matchRoute_admin : matchRoute "/admin" =
    { path := "/admin", view := .viewAdmin, protected_ := true, admin := true } := by
  decide

theorem renderRoute_appRoot (s : App) (m : Route) (v : Option View) (h : s.appRoot = some v) :
    (renderRoute s m).appRoot = some (some m.view) := by
  unfold renderRoute
  rw [h]

theorem pushState_served (s : App) (url : String) (h : s.protocol ≠ "file:") :
    pushState s url = some (withUrl s url) := by
  unfold pushState
  rw [if_neg (fun hc => h hc.1)]

theorem protected_path_ne_root (s : App)
    (hprot : (matchRoute (resolvePath s.protocol s.pathname)).protected_ = true) :
    s.pathname ≠ "/" := by
  intro h
  rw [h, resolvePath_root] at hprot
  revert hprot
  decide

theorem pushState_file (s : App) (hf : s.protocol = "file:")
    (hprot : (matchRoute (resolvePath s.protocol s.pathname)).protected_ = true) :
    pushState s "/" = none := by
  unfold pushState
  rw [if_pos ⟨hf, Ne.symm (protected_path_ne_root s hprot)⟩]

theorem router_no_session (fuel : Nat) (s : App)
    (hprot : (matchRoute (resolvePath s.protocol s.pathname)).protected_ = true)
    (hu : s.currentUser = none) :
    router (fuel + 2) s =
      if s.protocol = "file:" then some (navigationThrew s)
      else some (showToast (renderRoute (withUrl s "/") homeRoute) "// Please login first") := by
  rw [router]
  simp only [hprot, if_true, hu]
  by_cases hf : s.protocol = "file:"
  · simp only [pushState_file s hf hprot, if_pos hf]
  · simp only [pushState_served s "/" hf, if_neg hf, router_at_root fuel (withUrl s "/") rfl,
      Option.map_some']

theorem router_not_admin (fuel : Nat) (s : App) (u : User)
    (hprot : (matchRoute (resolvePath s.protocol s.pathname)).protected_ = true)
    (hu : s.currentUser = some u)
    (hadm : ((matchRoute (resolvePath s.protocol s.pathname)).admin && !u.is_admin) = true) :
    router (fuel + 2) s =
      if s.protocol = "file:" then some (navigationThrew s)
      else some (showToast (renderRoute (withUrl s "/") homeRoute) "// Admin access only") := by
  rw [router]
  simp only [hprot, if_true, hu, hadm]
  by_cases hf : s.protocol = "file:"
  · simp only [pushState_file s hf hprot, if_pos hf]
  · simp only [pushState_served s "/" hf, if_neg hf, router_at_root fuel (withUrl s "/") rfl,
      Option.map_some']

theorem router_admitted (fuel : Nat) (s : App) (u : User)
    (hprot : (matchRoute (resolvePath s.protocol s.pathname)).protected_ = true)
    (hu : s.currentUser = some u)
    (hadm : ¬ ((matchRoute (resolvePath s.protocol s.pathname)).admin && !u.is_admin) = true) :
    router (fuel + 1) s =
      some (renderRoute s (matchRoute (resolvePath s.protocol s.pathname))) := by
  rw [router]
  simp only [hprot, if_true, hu, hadm]
  rfl

theorem matchRoute_admin_protected (s : App) (hp : resolvePath s.protocol s.pathname = "/admin") :
    (matchRoute (resolvePath s.protocol s.pathname)).protected_ = true := by
  rw [hp]
  decide

/-- Where the page is not opened under `file:`, the pathname is `/admin` and
`currentUser` is `null`, the router (run with room for the one nested call)
redirects: it pushes `/`, the nested run renders the home route, and then the toast
`// Please login first` is shown.  On a page that has `#app-root` the view in it is
the home view, not the admin view. -/
theorem router_admin_without_session_served (fuel : Nat) (s : App)
    (hproto : s.protocol ≠ "file:") (hp : s.pathname = "/admin") (hu : s.currentUser = none) :
    router (fuel + 2) s =
        some (showToast (renderRoute (withUrl s "/") homeRoute) "// Please login first") ∧
      (showToast (renderRoute (withUrl s "/") homeRoute) "// Please login first").toasts =
        s.toasts ++ ["// Please login first"] ∧
      (showToast (renderRoute (withUrl s "/") homeRoute) "// Please login first").pathname =
        "/" ∧
      (∀ v, s.appRoot = some v →
        (showToast (renderRoute (withUrl s "/") homeRoute) "// Please login first").appRoot =
          some (some View.viewHome)) := by
  have hprot := matchRoute_admin_protected s (by rw [hp, resolvePath_admin])
  refine ⟨?_, ?_, ?_, ?_⟩
  · rw [router_no_session fuel s hprot hu, if_neg hproto]
  · unfold showToast renderRoute withUrl
    cases s.appRoot <;> rfl
  · unfold showToast renderRoute withUrl
    cases s.appRoot <;> rfl
  · intro v hv
    exact renderRoute_appRoot (withUrl s "/") homeRoute v hv

/-- C14 at the failing input: the page is opened as the local file
`/home/u/site/admin.html` and nobody is logged in.  The router reads the path as
`/admin`, finds no session and calls `navigateTo('/')`; under `file:`
`history.pushState` throws, nobody catches, and the run ends there, whatever the
bound on nested calls: nothing is rendered into `#app-root`, no toast is shown and
the pathname is what it was. -/
theorem router_admin_without_session_file_aborts :
    resolvePath "file:" "/home/u/site/admin.html" = "/admin" ∧
      (∀ fuel, router (fuel + 2)
          { App.initial with protocol := "file:", pathname := "/home/u/site/admin.html" } =
        some (navigationThrew
          { App.initial with protocol := "file:", pathname := "/home/u/site/admin.html" })) ∧
      (navigationThrew
        { App.initial with protocol := "file:", pathname := "/home/u/site/admin.html" }) =
        { App.initial with
          protocol := "file:", pathname := "/home/u/site/admin.html"
          navigationErrors := ["SecurityError"] } ∧
      (navigationThrew
        { App.initial with
          protocol := "file:", pathname := "/home/u/site/admin.html" }).appRoot = some none ∧
      (navigationThrew
        { App.initial with
          protocol := "file:", pathname := "/home/u/site/admin.html" }).toasts = [] := by
  refine ⟨by decide, ?_, by decide, by decide, by decide⟩
  intro fuel
  rw [router_no_session fuel _ (by decide) rfl]
  rfl

theorem matchRoute_of_unmatched (currentPath : String)
    (h : ∀ r ∈ routes, r.path ≠ currentPath) : matchRoute currentPath = homeRoute := by
  unfold matchRoute
  have hn : routes.find? (fun r => decide (r.path = currentPath)) = none := by
    rw [List.find?_eq_none]
    intro r hr
    simpa using h r hr
  rw [hn]
  rfl

theorem matchRoute_of_ne_home (currentPath : String) (h : matchRoute currentPath ≠ homeRoute) :
    matchRoute currentPath ∈ routes ∧ (matchRoute currentPath).path = currentPath := by
  unfold matchRoute at h ⊢
  cases hf : routes.find? (fun r => decide (r.path = currentPath)) with
  | none => rw [hf] at h; exact absurd rfl h
  | some r =>
    have h1 := List.mem_of_find?_eq_some hf
    have h2 := List.find?_some hf
    exact ⟨h1, by simpa using h2⟩

/-- C15: a path that, as the router reads it, is the path of no entry of the route
table (such as `/unknown`).  The router settles on the home route and, whoever is or
is not logged in, ends at once having rendered it: on a page that has `#app-root`
the view in it is the home view.  No toast is shown and nothing is pushed; there is
no other outcome, such as a not-found view. -/
theorem router_unmatched_renders_home (fuel : Nat) (s : App)
    (h : ∀ r ∈ routes, r.path ≠ resolvePath s.protocol s.pathname) :
    matchRoute (resolvePath s.protocol s.pathname) = homeRoute ∧
      router (fuel + 1) s = some (renderRoute s homeRoute) ∧
      (renderRoute s homeRoute).toasts = s.toasts ∧
      (renderRoute s homeRoute).pushed = s.pushed ∧
      (∀ v, s.appRoot = some v →
        (renderRoute s homeRoute).appRoot = some (some View.viewHome)) ∧
      ∀ protocol : String, ∀ r ∈ routes, r.path ≠ resolvePath protocol "/unknown" := by
  have hm := matchRoute_of_unmatched _ h
  refine ⟨hm, ?_, ?_, ?_, ?_, ?_⟩
  · rw [router_unprotected fuel s (by rw [hm]; rfl), hm]
  · unfold renderRoute
    cases s.appRoot <;> rfl
  · unfold renderRoute
    cases s.appRoot <;> rfl
  · intro v hv
    exact renderRoute_appRoot s homeRoute v hv
  · intro protocol
    rw [resolvePath_unknown]
    decide

/-- Witness of C15: the path `/unknown`, with a user logged in. -/
theorem router_unmatched_renders_home_witness :
    router 1 { App.initial with
        pathname := "/unknown", currentUser := some ⟨.num 7, "u", "m", false⟩ } =
      some (renderRoute { App.initial with
        pathname := "/unknown", currentUser := some ⟨.num 7, "u", "m", false⟩ } homeRoute) :=
  (router_unmatched_renders_home 0 { App.initial with
      pathname := "/unknown", currentUser := some ⟨.num 7, "u", "m", false⟩ }
    (by decide)).2.1

/-- Where the page is not opened under `file:`, the pathname is `/admin` and a user
without the admin flag is logged in, the router redirects: it pushes `/`, the nested
run renders the home route, and the toast `// Admin access only` is shown.  Under
every protocol: a user with the admin flag gets the admin route rendered, with no
toast; the two toasts of the access check are different texts; and whenever the route
settled on is not marked protected, the same route is rendered into `#app-root`
for any two values of `currentUser`. -/
theorem router_admin_with_session_served (fuel : Nat) (s : App) (u : User)
    (hp : s.pathname = "/admin") (hu : s.currentUser = some u) :
    (s.protocol ≠ "file:" → u.is_admin = false →
        router (fuel + 2) s =
          some (showToast (renderRoute (withUrl s "/") homeRoute) "// Admin access only") ∧
        ∀ v, s.appRoot = some v →
          (showToast (renderRoute (withUrl s "/") homeRoute) "// Admin access only").appRoot =
            some (some View.viewHome)) ∧
      (u.is_admin = true →
        router (fuel + 1) s = some (renderRoute s (matchRoute "/admin")) ∧
        (renderRoute s (matchRoute "/admin")).toasts = s.toasts ∧
        ∀ v, s.appRoot = some v →
          (renderRoute s (matchRoute "/admin")).appRoot = some (some View.viewAdmin)) ∧
      "// Admin access only" ≠ "// Please login first" ∧
      ∀ (t : App) (a b : Option User),
        (matchRoute (resolvePath t.protocol t.pathname)).protected_ = false →
          (router (fuel + 1) { t with currentUser := a }).map (fun r => r.appRoot) =
            (router (fuel + 1) { t with currentUser := b }).map (fun r => r.appRoot) := by
  have hres : resolvePath s.protocol s.pathname = "/admin" := by rw [hp, resolvePath_admin]
  have hprot := matchRoute_admin_protected s hres
  refine ⟨?_, ?_, by decide, ?_⟩
  · intro hproto hadm
    refine ⟨?_, fun v hv => renderRoute_appRoot (withUrl s "/") homeRoute v hv⟩
    rw [router_not_admin fuel s u hprot hu (by rw [hres, hadm]; decide), if_neg hproto]
  · intro hadm
    refine ⟨?_, ?_, fun v hv => ?_⟩
    · rw [router_admitted fuel s u hprot hu (by rw [hres, hadm]; decide), hres]
    · unfold renderRoute
      cases s.appRoot <;> rfl
    · rw [renderRoute_appRoot s _ v hv, matchRoute_admin]
  · intro t a b ht
    rw [router_unprotected fuel { t with currentUser := a } ht,
      router_unprotected fuel { t with currentUser := b } ht]
    unfold renderRoute
    cases t.appRoot <;> rfl

/-- C16 at the failing input: the page is opened as the local file
`/home/u/site/admin.html` and a user without the admin flag is logged in.  The
router reads the path as `/admin`, finds the flag missing and calls
`navigateTo('/')`; under `file:` `history.pushState` throws, nobody catches, and the
run ends there, whatever the bound on nested calls: nothing is rendered into
`#app-root` and the toast `// Admin access only` is not shown. -/
theorem router_admin_with_session_file_aborts :
    resolvePath "file:" "/home/u/site/admin.html" = "/admin" ∧
      (∀ fuel, router (fuel + 2)
          { App.initial with
            protocol := "file:", pathname := "/home/u/site/admin.html"
            currentUser := some ⟨.num 7, "u", "m", false⟩ } =
        some (navigationThrew
          { App.initial with
            protocol := "file:", pathname := "/home/u/site/admin.html"
            currentUser := some ⟨.num 7, "u", "m", false⟩ })) ∧
      (navigationThrew
        { App.initial with
          protocol := "file:", pathname := "/home/u/site/admin.html"
          currentUser := some ⟨.num 7, "u", "m", false⟩ }).appRoot = some none ∧
      (navigationThrew
        { App.initial with
          protocol := "file:", pathname := "/home/u/site/admin.html"
          currentUser := some ⟨.num 7, "u", "m", false⟩ }).toasts = [] ∧
      (navigationThrew
        { App.initial with
          protocol := "file:", pathname := "/home/u/site/admin.html"
          currentUser := some ⟨.num 7, "u", "m", false⟩ }).navigationErrors =
        ["SecurityError"] := by
  refine ⟨by decide, ?_, by decide, by decide, by decide⟩
  intro fuel
  rw [router_not_admin fuel _ ⟨.num 7, "u", "m", false⟩ (by decide) rfl (by decide)]
  rfl

/-- C17, as the code has it: route resolution is an exact match on the path as the
router reads it, that is after its two adjustments (under `file:` the last segment
of the pathname, a first `.html` cut; then one trailing slash cut).  The router
settles on a route other than home only when that path is exactly the path of that
route in the table, and on the home route whenever that path is the path of no
entry.  Outside `file:`, for a pathname that does not end in a slash, the path the
router reads is the pathname itself. -/
theorem matchRoute_exact_on_resolvePath (s : App) :
    (matchRoute (resolvePath s.protocol s.pathname) ≠ homeRoute →
        matchRoute (resolvePath s.protocol s.pathname) ∈ routes ∧
        (matchRoute (resolvePath s.protocol s.pathname)).path =
          resolvePath s.protocol s.pathname) ∧
      ((∀ r ∈ routes, r.path ≠ resolvePath s.protocol s.pathname) →
        matchRoute (resolvePath s.protocol s.pathname) = homeRoute) ∧
      (s.protocol ≠ "file:" → s.pathname.toList.getLast? ≠ some '/' →
        resolvePath s.protocol s.pathname = s.pathname) := by
  refine ⟨matchRoute_of_ne_home _, matchRoute_of_unmatched _, ?_⟩
  intro hproto hlast
  unfold resolvePath
  simp only [if_neg hproto]
  rw [if_neg]
  exact fun h => hlast h.1

/-- Witness of C17: the path `/contact` over https is read as it is and settles on
the contact route. -/
theorem matchRoute_exact_on_resolvePath_witness :
    (matchRoute (resolvePath "https:" "/contact")).path = resolvePath "https:" "/contact" :=
  ((matchRoute_exact_on_resolvePath { App.initial with pathname := "/contact" }).1
    (by decide)).2

/-- C17 refuted as stated: the path `/contact/` is the path of no entry of the
table, yet the router settles on the contact route, not on home, and renders the
contact view. -/
theorem router_trailing_slash_not_exact :
    (∀ r ∈ routes, r.path ≠ "/contact/") ∧
      matchRoute (resolvePath "https:" "/contact/") ≠ homeRoute ∧
      (matchRoute (resolvePath "https:" "/contact/")).path = "/contact" ∧
      (router 1 { App.initial with pathname := "/contact/" }).map (fun r => r.appRoot) =
        some (some (some View.viewContact)) := by
  decide

/-! ## C18 to C20: filtering and paging the catalog grids -/

theorem includes_iff_infix (s t : String) :
    includes s t = true ↔ t.toList <:+: s.toList := by
  unfold includes
  rw [List.any_eq_true, List.infix_iff_prefix_suffix]
  constructor
  · rintro ⟨u, hu, hp⟩
    exact ⟨u, List.isPrefixOf_iff_prefix.mp hp, (List.mem_tails _ _).mp hu⟩
  · rintro ⟨u, hp, hu⟩
    exact ⟨u, (List.mem_tails _ _).mpr hu, List.isPrefixOf_iff_prefix.mpr hp⟩

theorem renderGrid_container (filtered : List CatalogItem) (page : Nat) (dom : GridDom)
    (cards : List CatalogItem) (h : dom.container = some cards) :
    (renderGrid filtered page dom).container = some (filtered.take (page * 9)) := by
  unfold renderGrid
  rw [h]

/-- C18: for a filter other than `all`, the entries `renderProjectGrid` selects from
the dataset are exactly those whose category contains the filter as a run of
consecutive characters, in dataset order; the cards it renders into the container
are the first `page * 9` of them.  On the built-in fallback dataset the filter `ai`
selects the entries with ids 2, 4, 7 and 9, and page 1 renders all four. -/
theorem renderProjectGrid_selects_by_substring (projects : List CatalogItem) (dom : GridDom)
    (filter : String) (page : Nat) (hf : filter ≠ "all") :
    filteredProjects projects filter =
        projects.filter (fun p => decide (filter.toList <:+: p.category.toList)) ∧
      (∀ p, p ∈ filteredProjects projects filter ↔
        p ∈ projects ∧ filter.toList <:+: p.category.toList) ∧
      (filteredProjects projects filter).Sublist projects ∧
      (∀ cards, dom.container = some cards →
        (renderProjectGrid projects dom filter page).container =
          some ((filteredProjects projects filter).take (page * 9))) ∧
      (filteredProjects fallbackProjects "ai").map (fun p => p.id) =
        [.num 2, .num 4, .num 7, .num 9] ∧
      ((renderProjectGrid fallbackProjects { container := some [], loadMore := some "" }
          "ai" 1).container.map (fun cards => cards.map (fun p => p.id))) =
        some [.num 2, .num 4, .num 7, .num 9] := by
  have hsel : filteredProjects projects filter =
      projects.filter (fun p => decide (filter.toList <:+: p.category.toList)) := by
    unfold filteredProjects
    rw [if_neg hf]
    congr 1
    funext p
    rw [Bool.eq_iff_iff, includes_iff_infix]
    simp
  refine ⟨hsel, ?_, ?_, ?_, by decide, by decide⟩
  · intro p
    rw [hsel, List.mem_filter]
    simp
  · rw [hsel]
    exact List.filter_sublist _
  · intro cards hc
    exact renderGrid_container _ page dom cards hc

/-- Witness of C18: the fallback dataset filtered by `cpp`. -/
theorem renderProjectGrid_selects_by_substring_witness :
    (filteredProjects fallbackProjects "cpp").map (fun p => p.id) =
      [.num 1, .num 3, .num 5, .num 6, .num 8] :=
  (congrArg (List.map (fun p => p.id))
    (renderProjectGrid_selects_by_substring fallbackProjects
      { container := some [], loadMore := some "" } "cpp" 1 (by decide)).1).trans (by decide)

/-- C19: for a filter other than `all`, the entries `renderAiGrid` selects from the
dataset are exactly those whose category is the filter, in dataset order; the cards
it renders into the container are the first `page * 9` of them.  An entry whose
category only contains the filter is not selected: of two entries with categories
`models` and `models-v2` the filter `models` keeps the first alone.  On the
built-in fallback dataset the filter `models` selects the entries with ids 101, 102
and 104. -/
theorem renderAiGrid_selects_by_equality (aiProjects : List CatalogItem) (dom : GridDom)
    (filter : String) (page : Nat) (hf : filter ≠ "all") :
    filteredAiProjects aiProjects filter =
        aiProjects.filter (fun p => decide (p.category = filter)) ∧
      (∀ p, p ∈ filteredAiProjects aiProjects filter ↔ p ∈ aiProjects ∧ p.category = filter) ∧
      (filteredAiProjects aiProjects filter).Sublist aiProjects ∧
      (∀ cards, dom.container = some cards →
        (renderAiGrid aiProjects dom filter page).container =
          some ((filteredAiProjects aiProjects filter).take (page * 9))) ∧
      (filteredAiProjects
          [⟨.num 1, "a", "models", "t", "i", "d"⟩, ⟨.num 2, "b", "models-v2", "t", "i", "d"⟩]
          "models").map (fun p => p.id) = [.num 1] ∧
      (filteredAiProjects fallbackAiProjects "models").map (fun p => p.id) =
        [.num 101, .num 102, .num 104] ∧
      ((renderAiGrid fallbackAiProjects { container := some [], loadMore := some "" }
          "models" 1).container.map (fun cards => cards.map (fun p => p.id))) =
        some [.num 101, .num 102, .num 104] := by
  have hsel : filteredAiProjects aiProjects filter =
      aiProjects.filter (fun p => decide (p.category = filter)) := by
    unfold filteredAiProjects
    rw [if_neg hf]
  refine ⟨hsel, ?_, ?_, ?_, by decide, by decide, by decide⟩
  · intro p
    rw [hsel, List.mem_filter]
    simp
  · rw [hsel]
    exact List.filter_sublist _
  · intro cards hc
    exact renderGrid_container _ page dom cards hc

/-- Witness of C19: the fallback dataset filtered by `tools`. -/
theorem renderAiGrid_selects_by_equality_witness :
    (filteredAiProjects fallbackAiProjects "tools").map (fun p => p.id) = [.num 103] :=
  (congrArg (List.map (fun p => p.id))
    (renderAiGrid_selects_by_equality fallbackAiProjects
      { container := some [], loadMore := some "" } "tools" 1 (by decide)).1).trans (by decide)

/-- C20: for every dataset, filter and page number `p` (with `p >= 1` or not), on a
page that has the grid container, the cards `renderProjectGrid` and `renderAiGrid`
render are the first `min n (p * 9)` of the `n` entries the filter selects, in
dataset order: the first `p * 9` entries of the selection, a prefix of it, and
`min n (p * 9)` many. -/
theorem renderGrids_show_first_pages (data : List CatalogItem) (dom : GridDom)
    (filter : String) (p : Nat) (cards : List CatalogItem) (hc : dom.container = some cards) :
    ((renderProjectGrid data dom filter p).container =
        some ((filteredProjects data filter).take (min (filteredProjects data filter).length
          (p * 9))) ∧
      ((filteredProjects data filter).take (p * 9)).length =
        min (filteredProjects data filter).length (p * 9) ∧
      (filteredProjects data filter).take (p * 9) <+: filteredProjects data filter) ∧
    ((renderAiGrid data dom filter p).container =
        some ((filteredAiProjects data filter).take (min (filteredAiProjects data filter).length
          (p * 9))) ∧
      ((filteredAiProjects data filter).take (p * 9)).length =
        min (filteredAiProjects data filter).length (p * 9) ∧
      (filteredAiProjects data filter).take (p * 9) <+: filteredAiProjects data filter) := by
  have key : ∀ l : List CatalogItem,
      l.take (min l.length (p * 9)) = l.take (p * 9) := by
    intro l
    rcases Nat.le_total l.length (p * 9) with h | h
    · rw [Nat.min_eq_left h, List.take_of_length_le h, List.take_of_length_le (le_refl _)]
    · rw [Nat.min_eq_right h]
  refine ⟨⟨?_, ?_, List.take_prefix _ _⟩, ⟨?_, ?_, List.take_prefix _ _⟩⟩
  · rw [key]
    exact renderGrid_container _ p dom cards hc
  · rw [List.length_take, Nat.min_comm]
  · rw [key]
    exact renderGrid_container _ p dom cards hc
  · rw [List.length_take, Nat.min_comm]

/-- Witness of C20: the whole fallback dataset has nine entries and page 1 shows
them all. -/
theorem renderGrids_show_first_pages_witness :
    (renderProjectGrid fallbackProjects { container := some [], loadMore := some "" }
      "all" 1).container = some fallbackProjects :=
  ((renderGrids_show_first_pages fallbackProjects { container := some [], loadMore := some "" }
    "all" 1 [] rfl).1.1).trans (by decide)

/-! ## The stored cart after a save -/

theorem jsonStringify_ne_empty (l : List Entry) : jsonStringify l ≠ "" := by
  intro h
  have hd : (jsonStringify l).data = [] := by rw [h]
  cases l with
  | nil => rw [jsonStringify_data_nil] at hd; exact absurd hd (by simp)
  | cons e l => rw [jsonStringify_data_cons] at hd; exact absurd hd (by simp)

/-- What `saveState` stored is what `init` reads back: with a `JSON.parse` that undoes
`JSON.stringify`, a state whose stored text is the serialization of `l0` has `l0` as
its persisted cart. -/
theorem persistedCart_of_saved (jsonParse : String → Option (List Entry))
    (hparse : ∀ l, jsonParse (jsonStringify l) = some l) (s : App) (l0 : List Entry)
    (h : getItem s.localStorage "cyberGrid_Loadout" = some (jsonStringify l0)) :
    PersistedCart jsonParse s l0 :=
  Or.inr (Or.inr ⟨jsonStringify l0, h, jsonStringify_ne_empty l0, hparse l0⟩)

/-! ## C21: the load-more button -/

theorem renderGrid_loadMore (filtered : List CatalogItem) (page : Nat) (dom : GridDom)
    (cards : List CatalogItem) (btn : String) (hc : dom.container = some cards)
    (hb : dom.loadMore = some btn) :
    (renderGrid filtered page dom).loadMore =
      some (if filtered.length ≤ page * 9 then "none" else "inline-block") := by
  unfold renderGrid
  rw [hc]
  simp only [hb, Option.map_some']

theorem renderGrid_hidden_iff (filtered : List CatalogItem) (page : Nat) (dom : GridDom)
    (cards : List CatalogItem) (btn : String) (hc : dom.container = some cards)
    (hb : dom.loadMore = some btn) :
    ((renderGrid filtered page dom).loadMore = some "none" ↔ filtered.length ≤ page * 9) ∧
      ((renderGrid filtered page dom).loadMore = some "inline-block" ↔
        page * 9 < filtered.length) ∧
      (filtered.length ≤ page * 9 ↔ (renderGrid filtered page dom).container = some filtered) := by
  rw [renderGrid_loadMore filtered page dom cards btn hc hb,
    renderGrid_container filtered page dom cards hc]
  refine ⟨?_, ?_, ?_⟩
  · by_cases h : filtered.length ≤ page * 9
    · simp [h]
    · simp only [if_neg h, h, iff_false]
      decide
  · by_cases h : filtered.length ≤ page * 9
    · simp only [if_pos h, Nat.not_lt.mpr h, iff_false]
      decide
    · simp [h, Nat.lt_of_not_le h]
  · rw [Option.some.injEq, List.take_eq_self_iff]

/-- C21: on a page that has the grid container and the load-more button, for every
dataset, filter and page number `p`, after `renderProjectGrid` and after
`renderAiGrid` the button is hidden (`display` is `none`) if and only if the number
of entries the filter selects is at most `p * 9`, which is the case if and only if
the cards rendered are all of the selection, none remaining; otherwise, and only
then, the button is shown (`display` is `inline-block`). -/
theorem loadMore_hidden_iff_nothing_left (data : List CatalogItem) (dom : GridDom)
    (filter : String) (p : Nat) (cards : List CatalogItem) (btn : String)
    (hc : dom.container = some cards) (hb : dom.loadMore = some btn) :
    (((renderProjectGrid data dom filter p).loadMore = some "none" ↔
          (filteredProjects data filter).length ≤ p * 9) ∧
        ((renderProjectGrid data dom filter p).loadMore = some "inline-block" ↔
          p * 9 < (filteredProjects data filter).length) ∧
        ((filteredProjects data filter).length ≤ p * 9 ↔
          (renderProjectGrid data dom filter p).container =
            some (filteredProjects data filter))) ∧
      (((renderAiGrid data dom filter p).loadMore = some "none" ↔
          (filteredAiProjects data filter).length ≤ p * 9) ∧
        ((renderAiGrid data dom filter p).loadMore = some "inline-block" ↔
          p * 9 < (filteredAiProjects data filter).length) ∧
        ((filteredAiProjects data filter).length ≤ p * 9 ↔
          (renderAiGrid data dom filter p).container =
            some (filteredAiProjects data filter))) :=
  ⟨renderGrid_hidden_iff _ p dom cards btn hc hb, renderGrid_hidden_iff _ p dom cards btn hc hb⟩

/-- Witness of C21: the nine fallback projects on page 1 leave nothing to load. -/
theorem loadMore_hidden_iff_nothing_left_witness :
    (renderProjectGrid fallbackProjects { container := some [], loadMore := some "" }
      "all" 1).loadMore = some "none" :=
  (loadMore_hidden_iff_nothing_left fallbackProjects
    { container := some [], loadMore := some "" } "all" 1 [] "" rfl rfl).1.1.mpr (by decide)

/-! ## C22: the replies of the chat assistant -/

/-- C22: for every user input (and every user name), the reply of `generateReply` is
the reply of the first rule, in the order (hello, hi), (product, asset), (price,
cost), (who are you), (easter egg, secret), one of whose keywords occurs in the
lower-cased input, and the default reply when no keyword of any rule occurs; so an
input that matches several rules gets the reply of the earliest.  The lower-case
input `what is the price of this?` holds `hi` and `price` and is answered with the
greeting. -/
theorem generateReply_first_match (toLowerCase : String → String)
    (username userInput : String) :
    (HolographicCat.generateReply toLowerCase username userInput).1 =
        HolographicCat.firstMatchReply (HolographicCat.replyRules username)
          (toLowerCase userInput) ∧
      ((∀ r ∈ HolographicCat.replyRules username, ∀ k ∈ r.keywords,
          ¬ k.toList <:+: (toLowerCase userInput).toList) →
        (HolographicCat.generateReply toLowerCase username userInput).1 =
          HolographicCat.defaultReply) ∧
      (HolographicCat.generateReply (fun text => text) "neo" "what is the price of this?").1 =
        HolographicCat.greetingReply "neo" := by
  refine ⟨?_, ?_, by decide⟩
  · unfold HolographicCat.generateReply HolographicCat.firstMatchReply
      HolographicCat.replyRules
    simp only [List.find?_cons, List.find?_nil, List.any_cons, List.any_nil, Bool.or_false]
    generalize includes (toLowerCase userInput) "hello" = b1
    generalize includes (toLowerCase userInput) "hi" = b2
    generalize includes (toLowerCase userInput) "product" = b3
    generalize includes (toLowerCase userInput) "asset" = b4
    generalize includes (toLowerCase userInput) "price" = b5
    generalize includes (toLowerCase userInput) "cost" = b6
    generalize includes (toLowerCase userInput) "who are you" = b7
    generalize includes (toLowerCase userInput) "easter egg" = b8
    generalize includes (toLowerCase userInput) "secret" = b9
    cases b1 <;> cases b2 <;> cases b3 <;> cases b4 <;> cases b5 <;> cases b6 <;>
      cases b7 <;> cases b8 <;> cases b9 <;> rfl
  · intro h
    have hk : ∀ r ∈ HolographicCat.replyRules username, ∀ k ∈ r.keywords,
        includes (toLowerCase userInput) k = false := by
      intro r hr k hk
      rw [Bool.eq_false_iff]
      intro hi
      have hinfix : k.toList <:+: (toLowerCase userInput).toList := by
        rw [← includes_iff_infix]
        exact hi
      exact h r hr k hk hinfix
    simp only [HolographicCat.replyRules, List.mem_cons, List.mem_singleton, List.not_mem_nil,
      or_false, forall_eq_or_imp, forall_eq] at hk
    unfold HolographicCat.generateReply
    simp [hk]

/-- Witness of C22: an input without any keyword gets the default reply. -/
theorem generateReply_first_match_witness :
    (HolographicCat.generateReply (fun text => text) "neo" "xyz").1 =
      HolographicCat.defaultReply :=
  (generateReply_first_match (fun text => text) "neo" "xyz").2.1 (by decide)

/-! ## C23: loading the catalog -/

/-- C23: `loadData` always ends with a result, and for every outcome of the three
requests the result is one of two: when all three requests were answered with an ok
response whose body could be read, the three datasets hold the three bodies;
in every other case (a rejected request, a response that is not ok, a body that
cannot be read, even after an earlier assignment was made) the three datasets are
the three built-in fallback datasets.  No other result occurs, so backend data and
fallback data are never mixed. -/
theorem loadData_all_or_nothing (projRes aiRes : FetchResult (List CatalogItem))
    (modRes : FetchResult (List Module)) (c : Catalog) :
    (∃ p a m, projRes = .response true (some p) ∧ aiRes = .response true (some a) ∧
        modRes = .response true (some m) ∧
        loadData projRes aiRes modRes c = { projects := p, aiProjects := a, modules := m }) ∨
      ((¬ ∃ p a m, projRes = .response true (some p) ∧ aiRes = .response true (some a) ∧
          modRes = .response true (some m)) ∧
        loadData projRes aiRes modRes c =
          { projects := fallbackProjects, aiProjects := fallbackAiProjects,
            modules := fallbackModules }) := by
  cases projRes with
  | rejected => exact Or.inr ⟨by simp, rfl⟩
  | response pok pbody =>
    cases aiRes with
    | rejected => exact Or.inr ⟨by simp, rfl⟩
    | response aok abody =>
      cases modRes with
      | rejected => exact Or.inr ⟨by simp, rfl⟩
      | response mok mbody =>
        cases pok <;> cases aok <;> cases mok <;>
          cases pbody <;> cases abody <;> cases mbody <;>
          first
          | exact Or.inr ⟨by simp, rfl⟩
          | exact Or.inl ⟨_, _, _, rfl, rfl, rfl, rfl⟩

/-! ## C24: failures of checkout -/

theorem checkout_empty (s : App) (resp : OrderResponse) (hl : s.loadout = []) :
    checkout s resp =
      { state := LoadoutManager.showToast s "// Loadout is empty", uncaught := false } := by
  have hlen : s.loadout.length = 0 := by rw [hl]; rfl
  unfold checkout checkoutStart
  rw [if_pos hlen]

theorem checkout_no_session (s : App) (resp : OrderResponse) (hl : s.loadout ≠ [])
    (hu : s.currentUser = none) :
    checkout s resp =
      { state := { LoadoutManager.showToast s "// Please login to deploy" with
          loginModalActive := true },
        uncaught := false } := by
  have hlen : ¬ s.loadout.length = 0 := fun hz => hl (List.length_eq_zero.mp hz)
  unfold checkout checkoutStart
  rw [if_neg hlen, hu]

/-- C24, as the code has it: `checkout` ends normally and shows at least one toast
when a guard stops it (empty loadout, no session), when the order request is
answered with an ok response, and when it is answered with an error response whose
body can be read.  With a non-empty loadout and a session, a rejected `fetch` and an
error response whose body cannot be read are caught nowhere: `checkout` ends with
an uncaught exception and shows no toast, the loadout unchanged. -/
theorem checkout_failures (s : App) :
    (∀ resp : OrderResponse,
        (s.loadout = [] ∨ s.currentUser = none ∨ resp = OrderResponse.ok ∨
          ∃ err, resp = OrderResponse.error (some err)) →
        (checkout s resp).uncaught = false ∧
        s.toasts <+: (checkout s resp).state.toasts ∧
        s.toasts.length < (checkout s resp).state.toasts.length) ∧
      (∀ (u : User) (resp : OrderResponse), s.loadout ≠ [] → s.currentUser = some u →
        (resp = OrderResponse.rejected ∨ resp = OrderResponse.error none) →
        (checkout s resp).uncaught = true ∧
        (checkout s resp).state.toasts = s.toasts ∧
        (checkout s resp).state.loadout = s.loadout) := by
  constructor
  · intro resp h
    by_cases hl : s.loadout = []
    · rw [checkout_empty s resp hl]
      exact ⟨rfl, List.prefix_append _ _, by simp [LoadoutManager.showToast]⟩
    · cases hu : s.currentUser with
      | none =>
        rw [checkout_no_session s resp hl hu]
        exact ⟨rfl, List.prefix_append _ _, by simp [LoadoutManager.showToast]⟩
      | some u =>
        rcases h with h | h | h | ⟨err, h⟩
        · exact absurd h hl
        · rw [hu] at h; exact absurd h (by simp)
        · rw [h, checkout_session s u _ hl hu]
          refine ⟨rfl, ?_, ?_⟩
          · simp only [checkoutResume, purgeAll_toasts, LoadoutManager.showToast,
              List.append_assoc]
            exact List.prefix_append _ _
          · simp [checkoutResume, purgeAll_toasts, LoadoutManager.showToast]
        · rw [h, checkout_session s u _ hl hu]
          refine ⟨rfl, ?_, ?_⟩
          · simp only [checkoutResume, LoadoutManager.showToast]
            exact List.prefix_append _ _
          · simp [checkoutResume, LoadoutManager.showToast]
  · intro u resp hl hu h
    rw [checkout_session s u _ hl hu]
    rcases h with h | h <;> rw [h] <;> exact ⟨rfl, rfl, rfl⟩

/-- Witness of C24: one entry, a session, an error response with a body. -/
theorem checkout_failures_witness :
    (checkout { App.initial with
        loadout := [⟨.num 4, "a", "t"⟩]
        currentUser := some ⟨.num 7, "u", "m", false⟩ }
      (OrderResponse.error (some none))).uncaught = false :=
  ((checkout_failures { App.initial with
      loadout := [⟨.num 4, "a", "t"⟩]
      currentUser := some ⟨.num 7, "u", "m", false⟩ }).1
    (OrderResponse.error (some none)) (Or.inr (Or.inr (Or.inr ⟨none, rfl⟩)))).1

/-- C24 refuted as stated: one entry, a session, and `fetch` rejects (the network is
down), or the error response has a body that cannot be read.  Both times `checkout`
ends with an uncaught exception and no toast is shown. -/
theorem checkout_rejection_uncaught :
    (checkout { App.initial with
        loadout := [⟨.num 4, "a", "t"⟩]
        currentUser := some ⟨.num 7, "u", "m", false⟩ } OrderResponse.rejected).uncaught = true ∧
      (checkout { App.initial with
        loadout := [⟨.num 4, "a", "t"⟩]
        currentUser := some ⟨.num 7, "u", "m", false⟩ } OrderResponse.rejected).state.toasts = [] ∧
      (checkout { App.initial with
        loadout := [⟨.num 4, "a", "t"⟩]
        currentUser := some ⟨.num 7, "u", "m", false⟩ }
        (OrderResponse.error none)).uncaught = true ∧
      (checkout { App.initial with
        loadout := [⟨.num 4, "a", "t"⟩]
        currentUser := some ⟨.num 7, "u", "m", false⟩ }
        (OrderResponse.error none)).state.toasts = [] := by
  decide

/-! ## C25: logout -/

theorem getItem_removeStored_self (st : Storage) (key : String) :
    getItem (removeStored st key) key = none := by
  unfold getItem removeStored
  rw [Option.map_eq_none', List.find?_eq_none]
  intro kv hkv
  have := (List.mem_filter.mp hkv).2
  simpa using this

theorem getItem_removeStored_other (st : Storage) (key other : String) (h : other ≠ key) :
    getItem (removeStored st key) other = getItem st other := by
  unfold getItem removeStored
  congr 1
  rw [List.find?_filter]
  congr 1
  funext kv
  by_cases h2 : kv.1 = other
  · have h1 : kv.1 ≠ key := fun h3 => h (h2.symm.trans h3)
    simp [h2, h]
  · simp [h2]

theorem persistedCart_congr (jsonParse : String → Option (List Entry)) (s t : App)
    (l0 : List Entry)
    (h : getItem t.localStorage "cyberGrid_Loadout" = getItem s.localStorage "cyberGrid_Loadout")
    (hs : PersistedCart jsonParse s l0) : PersistedCart jsonParse t l0 := by
  unfold PersistedCart at hs ⊢
  rw [h]
  exact hs

theorem init_without_session (jsonParse : String → Option (List Entry)) (s : App)
    (snapshot : Snapshot) (hu : s.currentUser = none) :
    (init jsonParse s snapshot).state = s ∨
      ∃ l, (init jsonParse s snapshot).state = updateUI { s with loadout := l } := by
  unfold init
  dsimp only
  split
  · exact Or.inl rfl
  · next l _ =>
    right
    refine ⟨l, ?_⟩
    simp only [hu]
    rfl

/-- C25: whoever is or is not logged in, after the logout handler `currentUser` and
`authToken` are `null`, `localStorage` has no entry `token` and no entry `user`, the
entry `cyberGrid_Loadout` is what it was, and nothing was sent: no request was
passed to `fetch` and nothing was written to the remote store.  The handler runs
`init` again, which reads the loadout back from the stored cart: in a state in which
the cart stored under `cyberGrid_Loadout` is the loadout in memory (as after every
save) the loadout is what it was, and the toast `// Disconnected` is the one toast
shown. -/
theorem logout_clears_session_only (jsonParse : String → Option (List Entry)) (s : App) :
    (logout jsonParse s).currentUser = none ∧
      (logout jsonParse s).authToken = none ∧
      getItem (logout jsonParse s).localStorage "token" = none ∧
      getItem (logout jsonParse s).localStorage "user" = none ∧
      getItem (logout jsonParse s).localStorage "cyberGrid_Loadout" =
        getItem s.localStorage "cyberGrid_Loadout" ∧
      (logout jsonParse s).requests = s.requests ∧
      (logout jsonParse s).remoteWrites = s.remoteWrites ∧
      (logout jsonParse s).toasts = s.toasts ++ ["// Disconnected"] ∧
      (PersistedCart jsonParse s s.loadout → (logout jsonParse s).loadout = s.loadout) := by
  have hcart : getItem (removeStored (removeStored s.localStorage "token") "user")
      "cyberGrid_Loadout" = getItem s.localStorage "cyberGrid_Loadout" := by
    rw [getItem_removeStored_other _ _ _ (by decide),
      getItem_removeStored_other _ _ _ (by decide)]
  have htoken : getItem (removeStored (removeStored s.localStorage "token") "user")
      "token" = none := by
    rw [getItem_removeStored_other _ _ _ (by decide), getItem_removeStored_self]
  have huser : getItem (removeStored (removeStored s.localStorage "token") "user")
      "user" = none := getItem_removeStored_self _ _
  have hlog : logout jsonParse s =
      showToast (init jsonParse { s with
        authToken := none, currentUser := none
        localStorage := removeStored (removeStored s.localStorage "token") "user" }
        (.val none)).state "// Disconnected" := rfl
  have hcases := init_without_session jsonParse { s with
    authToken := none, currentUser := none
    localStorage := removeStored (removeStored s.localStorage "token") "user" }
    (.val none) rfl
  refine ⟨?_, ?_, ?_, ?_, ?_, ?_, ?_, ?_, ?_⟩
  · rw [hlog]; rcases hcases with h | ⟨l, h⟩ <;> rw [h] <;> rfl
  · rw [hlog]; rcases hcases with h | ⟨l, h⟩ <;> rw [h] <;> rfl
  · rw [hlog]; rcases hcases with h | ⟨l, h⟩ <;> rw [h] <;> exact htoken
  · rw [hlog]; rcases hcases with h | ⟨l, h⟩ <;> rw [h] <;> exact huser
  · rw [hlog]; rcases hcases with h | ⟨l, h⟩ <;> rw [h] <;> exact hcart
  · rw [hlog]; rcases hcases with h | ⟨l, h⟩ <;> rw [h] <;> rfl
  · rw [hlog]; rcases hcases with h | ⟨l, h⟩ <;> rw [h] <;> rfl
  · rw [hlog]; rcases hcases with h | ⟨l, h⟩ <;> rw [h] <;> rfl
  · intro hinv
    have hp : PersistedCart jsonParse
        { s with
          authToken := none, currentUser := none
          localStorage := removeStored (removeStored s.localStorage "token") "user" }
        s.loadout :=
      persistedCart_congr jsonParse s _ s.loadout hcart hinv
    have hinit := init_of_persisted jsonParse _ s.loadout hp (.val none)
    rw [hlog, hinit]
    rfl

/-- Witness of C25: a logged-in user with one entry in the cart logs out. -/
theorem logout_clears_session_only_witness :
    (logout (fun text => if text = jsonStringify [⟨.num 1, "a", "t"⟩] then
          some [⟨.num 1, "a", "t"⟩] else none)
        { App.initial with
          loadout := [⟨.num 1, "a", "t"⟩]
          localStorage := [("cyberGrid_Loadout", jsonStringify [⟨.num 1, "a", "t"⟩]),
            ("token", "abc"), ("user", "someone")]
          currentUser := some ⟨.num 7, "u", "m", false⟩
          authToken := some "abc" }).loadout = [⟨.num 1, "a", "t"⟩] :=
  (logout_clears_session_only _ _).2.2.2.2.2.2.2.2
    (Or.inr (Or.inr ⟨jsonStringify [⟨.num 1, "a", "t"⟩], by decide, by decide, by decide⟩))

/-! The stored cart is the loadout in memory: an invariant of the cart operations. -/

theorem persistedCart_initial (jsonParse : String → Option (List Entry)) :
    PersistedCart jsonParse App.initial App.initial.loadout :=
  Or.inl ⟨rfl, rfl⟩

theorem persistedCart_saveState (jsonParse : String → Option (List Entry))
    (hparse : ∀ l, jsonParse (jsonStringify l) = some l) (s : App) :
    PersistedCart jsonParse (saveState s) (saveState s).loadout :=
  persistedCart_of_saved jsonParse hparse _ _ (saveState_persists s).1

theorem persistedCart_applyOp (jsonParse : String → Option (List Entry))
    (hparse : ∀ l, jsonParse (jsonStringify l) = some l) (s : App) (op : Op)
    (hinv : PersistedCart jsonParse s s.loadout) :
    PersistedCart jsonParse (applyOp s op) (applyOp s op).loadout := by
  have hsave : ∀ (t : App) (msg : String),
      PersistedCart jsonParse (LoadoutManager.showToast (saveState t) msg)
        (LoadoutManager.showToast (saveState t) msg).loadout :=
    fun t msg => persistedCart_congr jsonParse (saveState t) _ _ rfl
      (persistedCart_saveState jsonParse hparse t)
  cases op with
  | addItem x =>
    show PersistedCart jsonParse (addItem s x) (addItem s x).loadout
    unfold addItem
    split
    · exact hsave _ _
    · exact hinv
  | removeItem k => exact persistedCart_saveState jsonParse hparse _
  | purgeAll => exact hsave _ _

theorem persistedCart_onRemoteValue (jsonParse : String → Option (List Entry))
    (hparse : ∀ l, jsonParse (jsonStringify l) = some l) (s : App)
    (remote : Option (List Entry)) (hinv : PersistedCart jsonParse s s.loadout) :
    PersistedCart jsonParse (onRemoteValue s remote) (onRemoteValue s remote).loadout := by
  unfold onRemoteValue
  cases remote with
  | none => exact hinv
  | some r =>
    dsimp only
    split
    · exact persistedCart_of_saved jsonParse hparse _ _ (getItem_setItem _ _ _)
    · exact hinv

/-! ## C26 and C27: trailing slash, and the redirect -/

theorem resolvePath_trailing_slash (protocol path : String) (hp : protocol ≠ "file:")
    (hne : path ≠ "") : resolvePath protocol (path ++ "/") = path := by
  have hdata : (path ++ "/").toList = path.toList ++ ['/'] := by
    show (path ++ "/").data = path.data ++ ['/']
    rw [String.data_append]
  have hcond : (path ++ "/").toList.getLast? = some '/' ∧ path ++ "/" ≠ "/" := by
    constructor
    · rw [hdata, List.getLast?_append]
      rfl
    · intro h
      have hd : (path ++ "/").toList = "/".toList := by rw [h]
      rw [hdata] at hd
      have : path.toList = [] := by
        have hl := congrArg List.length hd
        simp only [List.length_append, List.length_singleton] at hl
        have h0 : path.toList.length = 0 := by
          have : "/".toList.length = 1 := rfl
          omega
        exact List.length_eq_zero.mp h0
      exact hne (String.ext this)
  unfold resolvePath
  simp only [if_neg hp]
  rw [if_pos hcond, hdata, List.dropLast_concat]
  exact String.ext rfl

/-- C26, as the code has it: when the page is not opened under the `file:` protocol,
a path `P` followed by one slash is read as `P` (for every non-empty `P`), so for
every route path `P` of the table other than `/` the path `P/` resolves to the same
route as `P`, the route of that path; only one slash is cut, `P//` is read as `P/`.
Under every protocol the path `/` is read as it is and resolves to the home route. -/
theorem trailing_slash_normalized (protocol : String) (hp : protocol ≠ "file:") :
    (∀ path : String, path ≠ "" → resolvePath protocol (path ++ "/") = path) ∧
      (∀ r ∈ routes, r.path ≠ "/" →
        matchRoute (resolvePath protocol (r.path ++ "/")) =
            matchRoute (resolvePath protocol r.path) ∧
          matchRoute (resolvePath protocol (r.path ++ "/")) = r) ∧
      (∀ path : String, path ≠ "" →
        resolvePath protocol (path ++ "/" ++ "/") = path ++ "/") ∧
      (∀ anyProtocol : String, resolvePath anyProtocol "/" = "/") ∧
      matchRoute "/" = homeRoute := by
  refine ⟨fun path hne => resolvePath_trailing_slash protocol path hp hne, ?_, ?_,
    resolvePath_root, by decide⟩
  · intro r hr hroot
    simp only [routes, List.mem_cons, List.mem_singleton, List.not_mem_nil, or_false] at hr
    have hfacts : r.path ≠ "" ∧ r.path.toList.getLast? ≠ some '/' ∧ matchRoute r.path = r := by
      rcases hr with rfl | rfl | rfl | rfl | rfl
      · exact absurd rfl hroot
      all_goals decide
    obtain ⟨hne, hlast, hmatch⟩ := hfacts
    have hself : resolvePath protocol r.path = r.path := by
      unfold resolvePath
      simp only [if_neg hp]
      rw [if_neg]
      exact fun h => hlast h.1
    rw [resolvePath_trailing_slash protocol r.path hp hne, hself]
    exact ⟨rfl, hmatch⟩
  · intro path hne
    have hne2 : path ++ "/" ≠ "" := by
      intro h
      have hd : (path ++ "/").data = "".data := by rw [h]
      rw [String.data_append] at hd
      have hl := congrArg List.length hd
      have h1 : "/".data.length = 1 := rfl
      have h0 : "".data.length = 0 := rfl
      rw [List.length_append, h1, h0] at hl
      omega
    exact resolvePath_trailing_slash protocol (path ++ "/") hp hne2

/-- Witness of C26: over https the path `/contact/` resolves to the contact route. -/
theorem trailing_slash_normalized_witness :
    resolvePath "https:" ("/contact" ++ "/") = "/contact" :=
  (trailing_slash_normalized "https:" (by decide)).1 "/contact" (by decide)

/-- C26 refuted as stated: under the `file:` protocol the path `/contact/` is read as
`/` (its last segment is empty) and resolves to the home route, while `/contact`
resolves to the contact route. -/
theorem trailing_slash_under_file_protocol :
    resolvePath "file:" "/contact/" = "/" ∧
      matchRoute (resolvePath "file:" "/contact/") = homeRoute ∧
      (matchRoute (resolvePath "file:" "/contact")).view = View.viewContact ∧
      (router 1 { App.initial with protocol := "file:", pathname := "/contact/" }).map
          (fun r => r.appRoot) = some (some (some View.viewHome)) := by
  decide

/-- C27: for every path, protocol and session state, the router ends, with one and
the same result for every bound of at least 2 on the depth of its calls, and it has
called `history.pushState` at most once: either it pushed nothing, or it pushed the
single url `/`, or, under `file:`, its one call threw and the run ended there.  A
second redirect cannot follow the first: `/` is read as `/` under every protocol and
resolves to the home route, which is not protected, so the nested run renders home,
pushes nothing and throws nothing. -/
theorem router_redirects_at_most_once (s : App) :
    (∃ s1, (∀ fuel, router (fuel + 2) s = some s1) ∧
        (s1.pushed = s.pushed ∨ s1.pushed = s.pushed ++ ["/"]) ∧
        s1.pushed.length + s1.navigationErrors.length ≤
          s.pushed.length + s.navigationErrors.length + 1) ∧
      (∀ protocol : String, matchRoute (resolvePath protocol "/") = homeRoute) ∧
      homeRoute.protected_ = false ∧
      ∀ (fuel : Nat) (t : App), t.pathname = "/" →
        router (fuel + 1) t = some (renderRoute t homeRoute) ∧
          (renderRoute t homeRoute).pushed = t.pushed ∧
          (renderRoute t homeRoute).navigationErrors = t.navigationErrors := by
  have hrender : ∀ (t : App) (m : Route),
      (renderRoute t m).pushed = t.pushed ∧
        (renderRoute t m).navigationErrors = t.navigationErrors := by
    intro t m
    unfold renderRoute
    cases t.appRoot <;> exact ⟨rfl, rfl⟩
  have hredirect : ∀ (msg : String),
      (showToast (renderRoute (withUrl s "/") homeRoute) msg).pushed = s.pushed ++ ["/"] ∧
        (showToast (renderRoute (withUrl s "/") homeRoute) msg).navigationErrors =
          s.navigationErrors := by
    intro msg
    exact ⟨(hrender (withUrl s "/") homeRoute).1, (hrender (withUrl s "/") homeRoute).2⟩
  have hgate : ∀ (msg : String),
      (∀ fuel, router (fuel + 2) s =
        if s.protocol = "file:" then some (navigationThrew s)
        else some (showToast (renderRoute (withUrl s "/") homeRoute) msg)) →
      ∃ s1, (∀ fuel, router (fuel + 2) s = some s1) ∧
        (s1.pushed = s.pushed ∨ s1.pushed = s.pushed ++ ["/"]) ∧
        s1.pushed.length + s1.navigationErrors.length ≤
          s.pushed.length + s.navigationErrors.length + 1 := by
    intro msg h
    by_cases hf : s.protocol = "file:"
    · refine ⟨navigationThrew s, fun fuel => by rw [h fuel, if_pos hf], Or.inl rfl, ?_⟩
      simp only [navigationThrew, List.length_append, List.length_singleton]
      omega
    · refine ⟨_, fun fuel => by rw [h fuel, if_neg hf], Or.inr (hredirect msg).1, ?_⟩
      rw [(hredirect msg).1, (hredirect msg).2]
      simp only [List.length_append, List.length_singleton]
      omega
  refine ⟨?_, ?_, rfl, ?_⟩
  · by_cases hprot : (matchRoute (resolvePath s.protocol s.pathname)).protected_ = false
    · refine ⟨_, fun fuel => router_unprotected (fuel + 1) s hprot, Or.inl (hrender _ _).1, ?_⟩
      rw [(hrender _ _).1, (hrender _ _).2]
      omega
    · have hprot1 : (matchRoute (resolvePath s.protocol s.pathname)).protected_ = true := by
        simpa using hprot
      cases hu : s.currentUser with
      | none => exact hgate _ (fun fuel => router_no_session fuel s hprot1 hu)
      | some u =>
        by_cases hadm : ((matchRoute (resolvePath s.protocol s.pathname)).admin &&
            !u.is_admin) = true
        · exact hgate _ (fun fuel => router_not_admin fuel s u hprot1 hu hadm)
        · refine ⟨_, fun fuel => router_admitted (fuel + 1) s u hprot1 hu hadm,
            Or.inl (hrender _ _).1, ?_⟩
          rw [(hrender _ _).1, (hrender _ _).2]
          omega
  · intro protocol
    rw [resolvePath_root]
    decide
  · intro fuel t ht
    exact ⟨router_at_root fuel t ht, (hrender _ _).1, (hrender _ _).2⟩

/-! ## C28: identity of ids in `addItem` and `removeItem` -/

theorem addItem_removeItem_agree (s : App) (x : Entry)
    (habsent : ∀ e ∈ s.loadout, e.id ≠ x.id)
    (hagree : ∀ e ∈ s.loadout, jsString e.id = jsString x.id → e.id = x.id) :
    (removeItem (addItem s x) x.id).loadout = s.loadout := by
  have hadd : (addItem s x).loadout = s.loadout ++ [x] := by
    rw [addItem_loadout, if_neg]
    push_neg
    exact habsent
  rw [removeItem_loadout, hadd, List.filter_append]
  have h1 : s.loadout.filter (fun item => jsString item.id != jsString x.id) = s.loadout := by
    rw [List.filter_eq_self]
    intro e he
    have hne : jsString e.id ≠ jsString x.id := fun h => habsent e he (hagree e he h)
    simpa using hne
  have h2 : [x].filter (fun item => jsString item.id != jsString x.id) = [] := by
    simp
  rw [h1, h2, List.append_nil]

theorem addItem_removeItem_numeric (s : App) (x : Entry) (n : Int) (hx : x.id = .num n)
    (hnum : ∀ e ∈ s.loadout, ∃ k : Int, e.id = .num k)
    (habsent : ∀ e ∈ s.loadout, e.id ≠ x.id) :
    (removeItem (addItem s x) x.id).loadout = s.loadout := by
  apply addItem_removeItem_agree s x habsent
  intro e he hstr
  obtain ⟨k, hk⟩ := hnum e he
  rw [hk, hx] at hstr ⊢
  have : k = n := int_toString_injective k n hstr
  rw [this]

/-- C28 at the failing input: the loadout holds one entry whose id is the string
`"1"`, and the item added has the number `1` as id.  That id is not present for
`addItem`, which appends the item; `removeItem` of the number `1` then removes both
entries, and the loadout ends empty, not as it began. -/
theorem addItem_removeItem_mixed_ids :
    (∀ e ∈ ({ App.initial with loadout := [⟨.str "1", "a", "t"⟩] } : App).loadout,
        e.id ≠ (⟨.num 1, "b", "t"⟩ : Entry).id) ∧
      (addItem { App.initial with loadout := [⟨.str "1", "a", "t"⟩] }
          ⟨.num 1, "b", "t"⟩).loadout = [⟨.str "1", "a", "t"⟩, ⟨.num 1, "b", "t"⟩] ∧
      (removeItem (addItem { App.initial with loadout := [⟨.str "1", "a", "t"⟩] }
          ⟨.num 1, "b", "t"⟩) (.num 1)).loadout = [] ∧
      (removeItem (addItem { App.initial with loadout := [⟨.str "1", "a", "t"⟩] }
          ⟨.num 1, "b", "t"⟩) (.num 1)).loadout ≠
        ({ App.initial with loadout := [⟨.str "1", "a", "t"⟩] } : App).loadout := by
  decide

/-! ## C29: a click on an AI card -/

theorem openAiModal_numeric_ids (data : List CatalogItem) (m : Modal) (text : String)
    (hnum : ∀ q ∈ data, ∃ n : Int, q.id = .num n) :
    openAiModal data m (.str text) = m := by
  unfold openAiModal
  have hnone : data.find? (fun p => decide (p.id = Id.str text)) = none := by
    rw [List.find?_eq_none]
    intro q hq
    obtain ⟨n, hn⟩ := hnum q hq
    simp [hn]
  rw [hnone]

theorem clickAiCard_numeric_ids (data : List CatalogItem) (m : Modal) (proj : CatalogItem)
    (hnum : ∀ q ∈ data, ∃ n : Int, q.id = .num n) :
    clickAiCard data m proj = m := by
  unfold clickAiCard
  dsimp only
  split
  · exact openAiModal_numeric_ids data m _ hnum
  · rfl

theorem clickAiCard_string_id (data : List CatalogItem) (m : Modal) (proj : CatalogItem)
    (text : String) (hid : proj.id = .str text) (hne : text ≠ "")
    (hfirst : data.find? (fun p => decide (p.id = Id.str text)) = some proj) :
    (clickAiCard data m proj).currentAiProject = some proj ∧
      (clickAiCard data m proj).currentProject = none := by
  unfold clickAiCard dataAiId
  rw [hid]
  simp only [jsString, if_pos hne]
  unfold openAiModal
  rw [hfirst]
  exact ⟨rfl, rfl⟩

/-- C29 at the failing input: the built-in fallback dataset, all five of whose
entries `renderAiGrid` renders on page 1 of the filter `all`.  A click on the card
of any of them passes the string of its id to `openAiModal`, which finds no entry
whose id (a number) is strictly equal to that string: the modal state is left as it
was, no entry becomes the current AI project and the modal is not opened. -/
theorem clickAiCard_fallback_opens_nothing :
    (renderAiGrid fallbackAiProjects { container := some [], loadMore := some "" }
        "all" 1).container = some fallbackAiProjects ∧
      fallbackAiProjects.map (fun p => dataAiId p) = ["101", "102", "103", "104", "105"] ∧
      fallbackAiProjects.map (fun p =>
          clickAiCard fallbackAiProjects
            { currentProject := none, currentAiProject := none, shown := none,
              active := false } p) =
        fallbackAiProjects.map (fun _ =>
          ({ currentProject := none, currentAiProject := none, shown := none,
             active := false } : Modal)) ∧
      fallbackAiProjects.all (fun p =>
          (clickAiCard fallbackAiProjects
            { currentProject := none, currentAiProject := none, shown := none,
              active := false } p).currentAiProject != some p) = true := by
  decide

/-! ## C30: the Konami code -/

theorem keydown_index_le (k : Konami) (keyCode : Nat) : (keydown k keyCode).konamiIndex ≤ 9 := by
  unfold keydown
  split
  · next h =>
    have hlt : k.konamiIndex < konamiCode.length := by
      by_contra hge
      rw [List.getElem?_eq_none (Nat.le_of_not_lt hge)] at h
      exact absurd h (by simp)
    have hlen : konamiCode.length = 10 := rfl
    dsimp only
    split
    · exact Nat.zero_le _
    · next hne =>
      show k.konamiIndex + 1 ≤ 9
      have hne1 : k.konamiIndex + 1 ≠ 10 := by rw [← hlen]; exact hne
      omega
  · exact Nat.zero_le _

theorem keydowns_index_le (keys : List Nat) :
    ∀ k : Konami, k.konamiIndex ≤ 9 → (keydowns k keys).konamiIndex ≤ 9 := by
  induction keys with
  | nil => intro k hk; exact hk
  | cons key keys ih =>
    intro k _
    exact ih (keydown k key) (keydown_index_le k key)

theorem keydowns_code_from_zero (n : Nat) :
    keydowns { konamiIndex := 0, activations := n } konamiCode =
      { konamiIndex := 0, activations := n + 1 } := by
  simp [keydowns, keydown, konamiCode]

/-- C30 at the failing input: the keys up, up, up, down, down, left, right, left,
right, B, A, pressed with the progress index at 0.  The ten most recent key presses
are exactly the code, yet the easter egg is activated at none of the eleven key
presses: the third `up` resets the index to 0 without counting as a first key.  The
index is at most 9 after every one of them. -/
theorem keydowns_extra_up_never_activates :
    [38, 38, 38, 40, 40, 37, 39, 37, 39, 66, 65].drop 1 = konamiCode ∧
      (keydowns { konamiIndex := 0, activations := 0 }
        [38, 38, 38, 40, 40, 37, 39, 37, 39, 66, 65]).activations = 0 ∧
      (List.range 12).all (fun n =>
        (keydowns { konamiIndex := 0, activations := 0 }
          ([38, 38, 38, 40, 40, 37, 39, 37, 39, 66, 65].take n)).activations == 0 &&
        decide ((keydowns { konamiIndex := 0, activations := 0 }
          ([38, 38, 38, 40, 40, 37, 39, 37, 39, 66, 65].take n)).konamiIndex ≤ 9)) = true := by
  decide

end CyberGrid
